import Mathlib

/-!
Verification of the WebSocket connection manager in app/core/websocket.py.

The Python classes WebSocketMessage and ConnectionManager are shallowly
embedded: Python dicts become association lists, Python sets become
duplicate-free lists (insertion order), datetimes become integers
(seconds) except for the message timestamp, which keeps its calendar
fields so that isoformat can be modelled.  Transport effects
(websocket.accept, websocket.send_text) are modelled by boolean
outcomes supplied by the environment: true means the call returned
normally, false means it raised.
-/

set_option maxHeartbeats 1000000

namespace WsSpec

/-- Lookup in an association list, modelling a Python dict read
(first binding wins, as in a dict with unique keys). -/
def alookup {α β : Type} [DecidableEq α] : List (α × β) → α → Option β
  | [], _ => none
  | e :: rest, k => if k = e.1 then some e.2 else alookup rest k

/-- Write a key in an association list, modelling a Python dict store:
an existing binding is updated in place, a new key is appended. -/
def aset {α β : Type} [DecidableEq α] : List (α × β) → α → β → List (α × β)
  | [], k, v => [(k, v)]
  | e :: rest, k, v => if k = e.1 then (e.1, v) :: rest else e :: aset rest k v

/-- Delete a key from an association list, modelling a Python dict del. -/
def adel {α β : Type} [DecidableEq α] : List (α × β) → α → List (α × β)
  | [], _ => []
  | e :: rest, k => if k = e.1 then adel rest k else e :: adel rest k

/-- Python set.add on a duplicate-free list. -/
def sadd (l : List Nat) (x : Nat) : List Nat := if x ∈ l then l else l ++ [x]

/-- Python set.discard on a duplicate-free list. -/
def sdiscard (l : List Nat) (x : Nat) : List Nat := l.filter (fun y => decide (y ≠ x))

/-- The MessageType enum of websocket.py. -/
inductive MessageType where
  | sensor_update
  | pond_update
  | system_alert
  | heartbeat
  | authentication
  | error
deriving DecidableEq, Repr

/-- The .value string of each MessageType member, as in the source. -/
def MessageType.value : MessageType → String
  | .sensor_update => "sensor_update"
  | .pond_update => "pond_update"
  | .system_alert => "system_alert"
  | .heartbeat => "heartbeat"
  | .authentication => "authentication"
  | .error => "error"

/-- The ConnectionStatus enum of websocket.py. -/
inductive ConnectionStatus where
  | connected
  | disconnected
  | authenticated
  | unauthorized
deriving DecidableEq, Repr

/-- A Python datetime value as used by WebSocketMessage.timestamp;
only the fields that datetime.isoformat prints are kept. -/
structure PyDateTime where
  year : Nat
  month : Nat
  day : Nat
  hour : Nat
  minute : Nat
  second : Nat
  microsecond : Nat
deriving DecidableEq, Repr

/-- Two decimal digit characters of n (zero padded), as printf %02d
prints a value in the range datetime guarantees for its fields. -/
def pad2 (n : Nat) : List Char :=
  [Nat.digitChar (n / 10 % 10), Nat.digitChar (n % 10)]

/-- Four decimal digit characters of n (zero padded), as printf %04d
prints a year in the range datetime guarantees. -/
def pad4 (n : Nat) : List Char :=
  [Nat.digitChar (n / 1000 % 10), Nat.digitChar (n / 100 % 10),
   Nat.digitChar (n / 10 % 10), Nat.digitChar (n % 10)]

/-- Six decimal digit characters of n (zero padded), as printf %06d
prints a microsecond field. -/
def pad6 (n : Nat) : List Char :=
  [Nat.digitChar (n / 100000 % 10), Nat.digitChar (n / 10000 % 10),
   Nat.digitChar (n / 1000 % 10), Nat.digitChar (n / 100 % 10),
   Nat.digitChar (n / 10 % 10), Nat.digitChar (n % 10)]

/-- datetime.isoformat: YYYY-MM-DDTHH:MM:SS, with a .ffffff tail
exactly when the microsecond field is nonzero. -/
def isoformat (t : PyDateTime) : String :=
  String.mk (pad4 t.year ++ '-' :: pad2 t.month ++ '-' :: pad2 t.day ++
    'T' :: pad2 t.hour ++ ':' :: pad2 t.minute ++ ':' :: pad2 t.second ++
    (if t.microsecond = 0 then [] else '.' :: pad6 t.microsecond))

/-- A decimal digit character. -/
def isDigitCh (c : Char) : Bool :=
  decide (c ∈ ['0', '1', '2', '3', '4', '5', '6', '7', '8', '9'])

/-- Shape check for an ISO-8601 combined date-time string of the form
produced by datetime.isoformat (seconds precision, optional
six-digit fractional part, no timezone suffix). -/
def isIso8601Chars : List Char → Bool
  | y1 :: y2 :: y3 :: y4 :: '-' :: m1 :: m2 :: '-' :: d1 :: d2 ::
      'T' :: h1 :: h2 :: ':' :: n1 :: n2 :: ':' :: s1 :: s2 :: rest =>
    ([y1, y2, y3, y4, m1, m2, d1, d2, h1, h2, n1, n2, s1, s2].all isDigitCh) &&
    (match rest with
     | [] => true
     | '.' :: fs => decide (fs.length = 6) && fs.all isDigitCh
     | _ => false)
  | _ => false

/-- Shape check on a string. -/
def isIso8601 (s : String) : Bool := isIso8601Chars s.data

/-- A JSON value as it appears in the wire record built by to_dict:
a string, the untouched data payload, or an optional integer that
json.dumps renders as an int or null.  D is the payload type. -/
inductive WireValue (D : Type) where
  | str : String → WireValue D
  | payload : D → WireValue D
  | intOrNull : Option Int → WireValue D
deriving DecidableEq

/-- The WebSocketMessage class: message_type, data, timestamp,
pond_id, user_id (the constructor defaults for timestamp/pond_id/
user_id are supplied by callers in this embedding). -/
structure WebSocketMessage (D : Type) where
  message_type : MessageType
  data : D
  timestamp : PyDateTime
  pond_id : Option Int
  user_id : Option Int
deriving DecidableEq

/-- WebSocketMessage.to_dict, key for key as in the source. -/
def WebSocketMessage.to_dict {D : Type} (m : WebSocketMessage D) :
    List (String × WireValue D) :=
  [("type", WireValue.str m.message_type.value),
   ("data", WireValue.payload m.data),
   ("timestamp", WireValue.str (isoformat m.timestamp)),
   ("pond_id", WireValue.intOrNull m.pond_id),
   ("user_id", WireValue.intOrNull m.user_id)]

/-- One entry of ConnectionManager.connection_metadata.  Timestamps
are integer seconds. -/
structure Metadata where
  pond_id : Int
  user_id : Option Int
  connected_at : Int
  status : ConnectionStatus
  last_heartbeat : Int
  message_count : Nat
deriving DecidableEq, Repr

/-- The ConnectionManager.stats dict. -/
structure Stats where
  total_connections : Nat
  active_connections : Nat
  ponds_with_connections : Nat
  messages_sent : Nat
  messages_received : Nat
deriving DecidableEq, Repr

/-- The mutable state of a ConnectionManager.  Channels (WebSocket
handles) are names drawn from Nat; dicts are association lists and
the set values of the two indices are duplicate-free lists. -/
structure ConnectionManager where
  active_connections : List (Int × List Nat)
  user_connections : List (Int × List Nat)
  connection_metadata : List (Nat × Metadata)
  stats : Stats
deriving DecidableEq, Repr

/-- ConnectionManager.__init__. -/
def initManager : ConnectionManager :=
  { active_connections := []
    user_connections := []
    connection_metadata := []
    stats := { total_connections := 0, active_connections := 0,
               ponds_with_connections := 0, messages_sent := 0,
               messages_received := 0 } }

/-- ConnectionManager.connect.  acceptOk is the outcome of
await websocket.accept (false means it raised); welcomeOk is the
outcome of the welcome send_text at the end of the try block.  The
returned Bool is true when the call re-raises to its caller.  The
now argument stands for datetime.utcnow(). -/
def connect (s : ConnectionManager) (ws : Nat) (pond_id : Int)
    (user_id : Option Int) (now : Int) (acceptOk welcomeOk : Bool) :
    ConnectionManager × Bool :=
  if !acceptOk then (s, true)
  else
    let first := (alookup s.active_connections pond_id).isNone
    let active1 := if first then aset s.active_connections pond_id []
                   else s.active_connections
    let ponds1 := if first then active1.length
                  else s.stats.ponds_with_connections
    let bucket := (alookup active1 pond_id).getD []
    let active2 := aset active1 pond_id (sadd bucket ws)
    let user2 :=
      match user_id with
      | some u =>
        if u ≠ 0 then
          let base := if (alookup s.user_connections u).isNone then
                        aset s.user_connections u []
                      else s.user_connections
          aset base u (sadd ((alookup base u).getD []) ws)
        else s.user_connections
      | none => s.user_connections
    let meta2 := aset s.connection_metadata ws
      { pond_id := pond_id, user_id := user_id, connected_at := now,
        status := ConnectionStatus.connected, last_heartbeat := now,
        message_count := 0 }
    ({ active_connections := active2
       user_connections := user2
       connection_metadata := meta2
       stats := { s.stats with
                    total_connections := s.stats.total_connections + 1,
                    active_connections := s.stats.active_connections + 1,
                    ponds_with_connections := ponds1 } },
     !welcomeOk)

/-- ConnectionManager.disconnect.  The truthiness tests on pond_id
and user_id mirror Python: value present and nonzero. -/
def disconnect (s : ConnectionManager) (ws : Nat) : ConnectionManager :=
  let md := alookup s.connection_metadata ws
  let pond : Option Int := md.map (fun m => m.pond_id)
  let user : Option Int := md.bind (fun m => m.user_id)
  let resPair :=
    match pond with
    | some p =>
      if p ≠ 0 then
        match alookup s.active_connections p with
        | some bucket =>
          let b2 := sdiscard bucket ws
          if b2 = [] then
            let a := adel s.active_connections p
            (a, a.length)
          else (aset s.active_connections p b2, s.stats.ponds_with_connections)
        | none => (s.active_connections, s.stats.ponds_with_connections)
      else (s.active_connections, s.stats.ponds_with_connections)
    | none => (s.active_connections, s.stats.ponds_with_connections)
  let user1 :=
    match user with
    | some u =>
      if u ≠ 0 then
        match alookup s.user_connections u with
        | some bucket =>
          let b2 := sdiscard bucket ws
          if b2 = [] then adel s.user_connections u
          else aset s.user_connections u b2
        | none => s.user_connections
      else s.user_connections
    | none => s.user_connections
  let meta1 := if (alookup s.connection_metadata ws).isSome then
                 adel s.connection_metadata ws
               else s.connection_metadata
  { active_connections := resPair.1
    user_connections := user1
    connection_metadata := meta1
    stats := { s.stats with
                 active_connections := s.stats.active_connections - 1,
                 ponds_with_connections := resPair.2 } }

/-- The fan-out loop shared by broadcast_to_pond and
broadcast_to_user: walk the bucket; on a successful send bump the
connection message_count (when the channel still has metadata) and
the global messages_sent counter; on a raising send collect the
channel for cleanup.  Returns (state, delivered, to-clean-up). -/
def sendLoop (sendOk : Nat → Bool) :
    ConnectionManager → List Nat → ConnectionManager × List Nat × List Nat
  | s, [] => (s, [], [])
  | s, ws :: rest =>
    if sendOk ws then
      let meta1 :=
        match alookup s.connection_metadata ws with
        | some m => aset s.connection_metadata ws
            { m with message_count := m.message_count + 1 }
        | none => s.connection_metadata
      let s1 := { s with connection_metadata := meta1,
                         stats := { s.stats with
                           messages_sent := s.stats.messages_sent + 1 } }
      let r := sendLoop sendOk s1 rest
      (r.1, ws :: r.2.1, r.2.2)
    else
      let r := sendLoop sendOk s rest
      (r.1, r.2.1, ws :: r.2.2)

/-- ConnectionManager.broadcast_to_pond.  The message argument is the
serialized message text; sendOk gives each channel's send outcome.
The second component of the result lists the channels whose send
returned normally (the deliveries). -/
def broadcast_to_pond (s : ConnectionManager) (pond_id : Int)
    (_message : String) (sendOk : Nat → Bool) : ConnectionManager × List Nat :=
  match alookup s.active_connections pond_id with
  | none => (s, [])
  | some bucket =>
    let r := sendLoop sendOk s bucket
    (r.2.2.foldl disconnect r.1, r.2.1)

/-- ConnectionManager.broadcast_to_user, same engine over the user
index. -/
def broadcast_to_user (s : ConnectionManager) (user_id : Int)
    (_message : String) (sendOk : Nat → Bool) : ConnectionManager × List Nat :=
  match alookup s.user_connections user_id with
  | none => (s, [])
  | some bucket =>
    let r := sendLoop sendOk s bucket
    (r.2.2.foldl disconnect r.1, r.2.1)

/-- ConnectionManager.send_heartbeat: the whole body sits in a
try/except whose handler only logs, so a raising send (sendOk =
false) leaves the state untouched and nothing propagates; on a
successful send last_heartbeat is set to now when the channel still
has metadata. -/
def send_heartbeat (s : ConnectionManager) (ws : Nat) (now : Int)
    (sendOk : Bool) : ConnectionManager :=
  if sendOk then
    match alookup s.connection_metadata ws with
    | some m =>
      let meta1 := aset s.connection_metadata ws { m with last_heartbeat := now }
      { s with connection_metadata := meta1 }
    | none => s
  else s

/-- ConnectionManager.cleanup_inactive_connections:  collect every
channel whose idle time now - last_heartbeat strictly exceeds
max_idle_time, then disconnect each. -/
def cleanup_inactive_connections (s : ConnectionManager) (now : Int)
    (max_idle_time : Int) : ConnectionManager :=
  let websockets_to_remove :=
    (s.connection_metadata.filter
      (fun e => decide (now - e.2.last_heartbeat > max_idle_time))).map Prod.fst
  websockets_to_remove.foldl disconnect s

/-- ConnectionManager.get_pond_connections_count. -/
def get_pond_connections_count (s : ConnectionManager) (pond_id : Int) : Nat :=
  ((alookup s.active_connections pond_id).getD []).length

/-- ConnectionManager.get_user_connections_count. -/
def get_user_connections_count (s : ConnectionManager) (user_id : Int) : Nat :=
  ((alookup s.user_connections user_id).getD []).length

/-- Sum of the resource-index bucket sizes. -/
def sumBucketSizes (s : ConnectionManager) : Nat :=
  (s.active_connections.map (fun e => e.2.length)).sum

/-- The channel ws has metadata whose pond_id is p. -/
def metaPondIs (meta : List (Nat × Metadata)) (ws : Nat) (p : Int) : Bool :=
  match alookup meta ws with
  | some m => decide (m.pond_id = p)
  | none => false

/-- The channel ws has metadata whose user_id is some u. -/
def metaUserIs (meta : List (Nat × Metadata)) (ws : Nat) (u : Int) : Bool :=
  match alookup meta ws with
  | some m => decide (m.user_id = some u)
  | none => false

/-- Every resource bucket is nonempty, duplicate-free, and contains
only channels whose stored pond_id is that bucket's key. -/
def resIndexOk (s : ConnectionManager) : Bool :=
  s.active_connections.all (fun e =>
    !e.2.isEmpty && decide e.2.Nodup &&
    e.2.all (fun ws => metaPondIs s.connection_metadata ws e.1))

/-- Every owner bucket is nonempty, duplicate-free, and contains only
channels whose stored user_id is that bucket's key. -/
def ownIndexOk (s : ConnectionManager) : Bool :=
  s.user_connections.all (fun e =>
    !e.2.isEmpty && decide e.2.Nodup &&
    e.2.all (fun ws => metaUserIs s.connection_metadata ws e.1))

/-- A registered channel has a nonzero pond_id, no owner id equal to
zero, sits in the bucket of its pond, and, when owned, in the bucket
of its owner. -/
def metaEntryOk (s : ConnectionManager) (e : Nat × Metadata) : Bool :=
  decide (e.2.pond_id ≠ 0) && decide (e.2.user_id ≠ some 0) &&
  (match alookup s.active_connections e.2.pond_id with
   | some l => decide (e.1 ∈ l)
   | none => false) &&
  (match e.2.user_id with
   | some u =>
     (match alookup s.user_connections u with
      | some l => decide (e.1 ∈ l)
      | none => false)
   | none => true)

/-- metaEntryOk over the whole registry. -/
def metaOk (s : ConnectionManager) : Bool :=
  s.connection_metadata.all (metaEntryOk s)

/-- All three dicts have duplicate-free key lists. -/
def keysOk (s : ConnectionManager) : Bool :=
  decide (s.active_connections.map Prod.fst).Nodup &&
  decide (s.user_connections.map Prod.fst).Nodup &&
  decide (s.connection_metadata.map Prod.fst).Nodup

/-- Executable well-formedness invariant of a manager state. -/
def Inv (s : ConnectionManager) : Bool :=
  resIndexOk s && ownIndexOk s && metaOk s && keysOk s

/-- Resource-index invariant, lookup form. -/
def RInv (s : ConnectionManager) : Prop :=
  ∀ p l, alookup s.active_connections p = some l →
    l ≠ [] ∧ l.Nodup ∧
    ∀ ws ∈ l, ∃ m, alookup s.connection_metadata ws = some m ∧ m.pond_id = p

/-- Owner-index invariant, lookup form. -/
def OInv (s : ConnectionManager) : Prop :=
  ∀ u l, alookup s.user_connections u = some l →
    l ≠ [] ∧ l.Nodup ∧
    ∀ ws ∈ l, ∃ m, alookup s.connection_metadata ws = some m ∧ m.user_id = some u

/-- Registry invariant, lookup form. -/
def MInv (s : ConnectionManager) : Prop :=
  ∀ ws m, alookup s.connection_metadata ws = some m →
    m.pond_id ≠ 0 ∧ m.user_id ≠ some 0 ∧
    (∃ l, alookup s.active_connections m.pond_id = some l ∧ ws ∈ l) ∧
    (∀ u, m.user_id = some u →
      ∃ l, alookup s.user_connections u = some l ∧ ws ∈ l)

/-- Key lists of the three dicts are duplicate-free. -/
def KInv (s : ConnectionManager) : Prop :=
  (s.active_connections.map Prod.fst).Nodup ∧
  (s.user_connections.map Prod.fst).Nodup ∧
  (s.connection_metadata.map Prod.fst).Nodup

/-- Propositional form of Inv. -/
def GoodState (s : ConnectionManager) : Prop :=
  RInv s ∧ OInv s ∧ MInv s ∧ KInv s

/-- A registry mutation: one connect or disconnect call together with
its transport outcomes. -/
inductive Op where
  | connect (ws : Nat) (pond_id : Int) (user_id : Option Int) (now : Int)
      (acceptOk welcomeOk : Bool)
  | disconnect (ws : Nat)
deriving DecidableEq, Repr

/-- Apply one call to the manager state. -/
def applyOp (s : ConnectionManager) : Op → ConnectionManager
  | .connect ws p u now acceptOk welcomeOk =>
    (connect s ws p u now acceptOk welcomeOk).1
  | .disconnect ws => disconnect s ws

/-- A call is well formed in state s when an accepted connect uses a
channel that is not currently registered, a nonzero pond id, and no
owner id equal to zero; a refused connect and any disconnect are
always well formed. -/
def validOp (s : ConnectionManager) : Op → Bool
  | .connect ws p u _ acceptOk _ =>
    !acceptOk ||
      ((alookup s.connection_metadata ws).isNone && decide (p ≠ 0) &&
        decide (u ≠ some 0))
  | .disconnect _ => true

/-- All calls of a trace are well formed in the states they meet. -/
def validTrace (s : ConnectionManager) : List Op → Bool
  | [] => true
  | op :: rest => validOp s op && validTrace (applyOp s op) rest

/-- Run a trace of calls. -/
def runOps (s : ConnectionManager) (ops : List Op) : ConnectionManager :=
  ops.foldl applyOp s

/-- The registry/index coherence stated by the spec: every registered
channel is in exactly the resource bucket matching its stored
pond_id, and, when it has an owner, in exactly the matching owner
bucket; no bucket of either index is empty; the bucket sizes of the
resource index sum to the number of registered channels. -/
def IndexCoherent (s : ConnectionManager) : Prop :=
  (∀ ws m, alookup s.connection_metadata ws = some m →
    (∃ l, alookup s.active_connections m.pond_id = some l ∧ ws ∈ l) ∧
    (∀ p l, alookup s.active_connections p = some l → ws ∈ l → p = m.pond_id) ∧
    (∀ u, m.user_id = some u →
      ∃ l, alookup s.user_connections u = some l ∧ ws ∈ l) ∧
    (∀ u l, alookup s.user_connections u = some l → ws ∈ l →
      m.user_id = some u)) ∧
  (∀ p l, alookup s.active_connections p = some l → l ≠ []) ∧
  (∀ u l, alookup s.user_connections u = some l → l ≠ []) ∧
  sumBucketSizes s = s.connection_metadata.length

/-- Trace of the C2 counterexample: a connect to pond 0 followed by
its disconnect. -/
def c2CexOps : List Op :=
  [Op.connect 1 0 none 0 true true, Op.disconnect 1]

/-- A sample valid trace: three channels on pond 7, one owned by user
42, then one disconnect. -/
def c2WitnessOps : List Op :=
  [Op.connect 1 7 (some 42) 0 true true,
   Op.connect 2 7 none 10 true true,
   Op.connect 3 8 (some 42) 20 true true,
   Op.disconnect 2]

/-- Three channels on pond 7, channel 1 owned by user 42: the state of
the broadcast scenarios. -/
def broadcastState : ConnectionManager :=
  runOps initManager
    [Op.connect 1 7 (some 42) 0 true true,
     Op.connect 2 7 none 10 true true,
     Op.connect 3 7 none 20 true true]

/-- Two channels on pond 7 owned by different users. -/
def twoOwnerState : ConnectionManager :=
  runOps initManager
    [Op.connect 1 7 (some 42) 0 true true,
     Op.connect 2 7 (some 43) 10 true true]

/-- Two channels whose last heartbeats are 400 and 100 seconds in the
past at time 500. -/
def cleanupState : ConnectionManager :=
  runOps initManager
    [Op.connect 1 7 none 100 true true,
     Op.connect 2 7 none 400 true true]

theorem alookup_aset_self {α β : Type} [DecidableEq α] (m : List (α × β)) (k : α) (v : β) :
    alookup (aset m k v) k = some v := by
  induction m with
  | nil => simp [aset, alookup]
  | cons e rest ih =>
    by_cases h : k = e.1
    · simp [aset, h, alookup]
    · simp [aset, h, alookup, ih]

theorem alookup_aset_ne {α β : Type} [DecidableEq α] (m : List (α × β)) (k j : α) (v : β)
    (h : j ≠ k) : alookup (aset m k v) j = alookup m j := by
  induction m with
  | nil => simp [aset, alookup, h]
  | cons e rest ih =>
    by_cases hk : k = e.1
    · subst hk
      simp [aset, alookup, h]
    · by_cases hj : j = e.1
      · simp [aset, hk, alookup, hj]
      · simp [aset, hk, alookup, hj, ih]

theorem alookup_adel_self {α β : Type} [DecidableEq α] (m : List (α × β)) (k : α) :
    alookup (adel m k) k = none := by
  induction m with
  | nil => simp [adel, alookup]
  | cons e rest ih =>
    by_cases h : k = e.1
    · subst h
      simp [adel, ih]
    · simp [adel, h, alookup, ih]

theorem alookup_adel_ne {α β : Type} [DecidableEq α] (m : List (α × β)) (k j : α)
    (h : j ≠ k) : alookup (adel m k) j = alookup m j := by
  induction m with
  | nil => simp [adel]
  | cons e rest ih =>
    by_cases hk : k = e.1
    · subst hk
      simp [adel, alookup, h, ih]
    · by_cases hj : j = e.1
      · simp [adel, hk, alookup, hj]
      · simp [adel, hk, alookup, hj, ih]

theorem mem_of_alookup {α β : Type} [DecidableEq α] (m : List (α × β)) (k : α) (v : β)
    (h : alookup m k = some v) : (k, v) ∈ m := by
  induction m with
  | nil => simp [alookup] at h
  | cons e rest ih =>
    by_cases hk : k = e.1
    · subst hk
      simp [alookup] at h
      subst h
      exact List.mem_cons_self _ _
    · simp [alookup, hk] at h
      exact List.mem_cons_of_mem _ (ih h)

theorem alookup_of_mem {α β : Type} [DecidableEq α] (m : List (α × β)) (k : α) (v : β)
    (hnd : (m.map Prod.fst).Nodup) (h : (k, v) ∈ m) : alookup m k = some v := by
  induction m with
  | nil => simp at h
  | cons e rest ih =>
    rw [List.map_cons, List.nodup_cons] at hnd
    rcases List.mem_cons.mp h with h1 | h1
    · rw [← h1]
      simp [alookup]
    · have hkmem : k ∈ rest.map Prod.fst := List.mem_map.mpr ⟨(k, v), h1, rfl⟩
      have hk : k ≠ e.1 := fun hke => hnd.1 (hke ▸ hkmem)
      simp [alookup, hk]
      exact ih hnd.2 h1

theorem alookup_eq_none {α β : Type} [DecidableEq α] (m : List (α × β)) (k : α) :
    alookup m k = none ↔ k ∉ m.map Prod.fst := by
  induction m with
  | nil => simp [alookup]
  | cons e rest ih =>
    by_cases hk : k = e.1
    · simp [alookup, hk]
    · simp [alookup, hk, ih]

theorem aset_keys {α β : Type} [DecidableEq α] (m : List (α × β)) (k : α) (v : β) :
    (aset m k v).map Prod.fst =
      if k ∈ m.map Prod.fst then m.map Prod.fst else m.map Prod.fst ++ [k] := by
  induction m with
  | nil => simp [aset]
  | cons e rest ih =>
    by_cases hk : k = e.1
    · subst hk
      simp [aset]
    · by_cases hmem : k ∈ rest.map Prod.fst
      · simp [aset, hk, ih, hmem]
      · simp [aset, hk, ih, hmem]

theorem aset_keys_nodup {α β : Type} [DecidableEq α] (m : List (α × β)) (k : α) (v : β)
    (hnd : (m.map Prod.fst).Nodup) : ((aset m k v).map Prod.fst).Nodup := by
  rw [aset_keys]
  by_cases hmem : k ∈ m.map Prod.fst
  · simpa [hmem] using hnd
  · simp [hmem, List.nodup_append, hnd]

theorem adel_keys {α β : Type} [DecidableEq α] (m : List (α × β)) (k : α) :
    (adel m k).map Prod.fst = (m.map Prod.fst).filter (fun x => decide (x ≠ k)) := by
  induction m with
  | nil => simp [adel]
  | cons e rest ih =>
    by_cases hk : k = e.1
    · subst hk
      simp [adel, ih, List.filter_cons]
    · simp [adel, hk, ih, List.filter_cons, Ne.symm hk]

theorem adel_keys_nodup {α β : Type} [DecidableEq α] (m : List (α × β)) (k : α)
    (hnd : (m.map Prod.fst).Nodup) : ((adel m k).map Prod.fst).Nodup := by
  rw [adel_keys]
  exact hnd.filter _

theorem mem_sadd (l : List Nat) (x y : Nat) : y ∈ sadd l x ↔ y = x ∨ y ∈ l := by
  unfold sadd
  by_cases h : x ∈ l
  · simp [h]
    intro hyx
    rw [hyx]
    exact h
  · simp [h, or_comm]

theorem sadd_ne_nil (l : List Nat) (x : Nat) : sadd l x ≠ [] := by
  unfold sadd
  by_cases h : x ∈ l
  · simp [h]
    intro hnil
    rw [hnil] at h
    simp at h
  · simp [h]

theorem sadd_nodup (l : List Nat) (x : Nat) (hnd : l.Nodup) : (sadd l x).Nodup := by
  unfold sadd
  by_cases h : x ∈ l
  · simpa [h] using hnd
  · simp [h, List.nodup_append, hnd]

theorem mem_sdiscard (l : List Nat) (x y : Nat) : y ∈ sdiscard l x ↔ y ∈ l ∧ y ≠ x := by
  simp [sdiscard, List.mem_filter]

theorem sdiscard_nodup (l : List Nat) (x : Nat) (hnd : l.Nodup) : (sdiscard l x).Nodup :=
  hnd.filter _

theorem length_filter_add_length_filter_not (l : List Nat) (p : Nat → Bool) :
    (l.filter p).length + (l.filter (fun a => !(p a))).length = l.length := by
  induction l with
  | nil => simp
  | cons a rest ih =>
    cases h : p a <;> simp [List.filter_cons, h] <;> omega

theorem disconnect_meta (s : ConnectionManager) (ws x : Nat) :
    alookup (disconnect s ws).connection_metadata x =
      if x = ws then none else alookup s.connection_metadata x := by
  cases hmd : alookup s.connection_metadata ws with
  | none =>
    have hmeta : (disconnect s ws).connection_metadata = s.connection_metadata := by
      simp [disconnect, hmd]
    rw [hmeta]
    by_cases hx : x = ws
    · subst hx
      simp [hmd]
    · simp [hx]
  | some m =>
    have hmeta : (disconnect s ws).connection_metadata = adel s.connection_metadata ws := by
      simp [disconnect, hmd]
    rw [hmeta]
    by_cases hx : x = ws
    · subst hx
      simp [alookup_adel_self]
    · simp [hx, alookup_adel_ne _ _ _ hx]

theorem disconnect_active (s : ConnectionManager) (ws : Nat) (q : Int) :
    alookup (disconnect s ws).active_connections q =
      match alookup s.connection_metadata ws with
      | some m =>
        if q = m.pond_id ∧ m.pond_id ≠ 0 then
          (match alookup s.active_connections m.pond_id with
           | some b => if sdiscard b ws = [] then none else some (sdiscard b ws)
           | none => none)
        else alookup s.active_connections q
      | none => alookup s.active_connections q := by
  cases hmd : alookup s.connection_metadata ws with
  | none => simp [disconnect, hmd]
  | some m =>
    by_cases hp : m.pond_id ≠ 0
    · cases halk : alookup s.active_connections m.pond_id with
      | none =>
        have ha : (disconnect s ws).active_connections = s.active_connections := by
          simp [disconnect, hmd, hp, halk]
        rw [ha]
        by_cases hq : q = m.pond_id
        · subst hq
          simp [hp, halk]
        · simp [hq]
      | some b =>
        by_cases hb2 : sdiscard b ws = []
        · have ha : (disconnect s ws).active_connections =
              adel s.active_connections m.pond_id := by
            simp [disconnect, hmd, hp, halk, hb2]
          rw [ha]
          by_cases hq : q = m.pond_id
          · subst hq
            simp [hp, halk, hb2, alookup_adel_self]
          · simp [hq, alookup_adel_ne _ _ _ hq]
        · have ha : (disconnect s ws).active_connections =
              aset s.active_connections m.pond_id (sdiscard b ws) := by
            simp [disconnect, hmd, hp, halk, hb2]
          rw [ha]
          by_cases hq : q = m.pond_id
          · subst hq
            simp [hp, halk, hb2, alookup_aset_self]
          · simp [hq, alookup_aset_ne _ _ _ _ hq]
    · have ha : (disconnect s ws).active_connections = s.active_connections := by
        simp [disconnect, hmd, hp]
      rw [ha]
      simp at hp
      simp [hp]

theorem disconnect_user (s : ConnectionManager) (ws : Nat) (v : Int) :
    alookup (disconnect s ws).user_connections v =
      match (alookup s.connection_metadata ws).bind (fun m => m.user_id) with
      | some u =>
        if v = u ∧ u ≠ 0 then
          (match alookup s.user_connections u with
           | some b => if sdiscard b ws = [] then none else some (sdiscard b ws)
           | none => none)
        else alookup s.user_connections v
      | none => alookup s.user_connections v := by
  cases hmd : alookup s.connection_metadata ws with
  | none => simp [disconnect, hmd]
  | some m =>
    cases hu : m.user_id with
    | none => simp [disconnect, hmd, hu]
    | some u =>
      by_cases hz : u ≠ 0
      · cases hul : alookup s.user_connections u with
        | none =>
          have ha : (disconnect s ws).user_connections = s.user_connections := by
            simp [disconnect, hmd, hu, hz, hul]
          rw [ha]
          by_cases hv : v = u
          · subst hv
            simp [hu, hz, hul]
          · simp [hu, hv]
        | some b =>
          by_cases hb2 : sdiscard b ws = []
          · have ha : (disconnect s ws).user_connections =
                adel s.user_connections u := by
              simp [disconnect, hmd, hu, hz, hul, hb2]
            rw [ha]
            by_cases hv : v = u
            · subst hv
              simp [hu, hz, hul, hb2, alookup_adel_self]
            · simp [hu, hv, hz, hul, hb2, alookup_adel_ne _ _ _ hv]
          · have ha : (disconnect s ws).user_connections =
                aset s.user_connections u (sdiscard b ws) := by
              simp [disconnect, hmd, hu, hz, hul, hb2]
            rw [ha]
            by_cases hv : v = u
            · subst hv
              simp [hu, hz, hul, hb2, alookup_aset_self]
            · simp [hu, hv, hz, hul, hb2, alookup_aset_ne _ _ _ _ hv]
      · have ha : (disconnect s ws).user_connections = s.user_connections := by
          simp [disconnect, hmd, hu, hz]
        rw [ha]
        simp at hz
        simp [hu, hz]

theorem disconnect_stats (s : ConnectionManager) (ws : Nat) :
    (disconnect s ws).stats.active_connections = s.stats.active_connections - 1 ∧
    (disconnect s ws).stats.total_connections = s.stats.total_connections ∧
    (disconnect s ws).stats.messages_sent = s.stats.messages_sent ∧
    (disconnect s ws).stats.messages_received = s.stats.messages_received := by
  refine ⟨rfl, rfl, rfl, rfl⟩

theorem disconnect_not_registered (s : ConnectionManager) (ws : Nat)
    (hmd : alookup s.connection_metadata ws = none) :
    disconnect s ws =
      { s with stats := { s.stats with
          active_connections := s.stats.active_connections - 1 } } := by
  simp [disconnect, hmd]

theorem sendLoop_delivered (f : Nat → Bool) (l : List Nat) :
    ∀ s : ConnectionManager, (sendLoop f s l).2.1 = l.filter f := by
  induction l with
  | nil => intro s; simp [sendLoop]
  | cons w rest ih =>
    intro s
    cases hw : f w <;> simp [sendLoop, hw, List.filter_cons, ih]

theorem sendLoop_dead (f : Nat → Bool) (l : List Nat) :
    ∀ s : ConnectionManager, (sendLoop f s l).2.2 = l.filter (fun w => !(f w)) := by
  induction l with
  | nil => intro s; simp [sendLoop]
  | cons w rest ih =>
    intro s
    cases hw : f w <;> simp [sendLoop, hw, List.filter_cons, ih]

theorem sendLoop_active (f : Nat → Bool) (l : List Nat) :
    ∀ s : ConnectionManager,
      (sendLoop f s l).1.active_connections = s.active_connections := by
  induction l with
  | nil => intro s; simp [sendLoop]
  | cons w rest ih =>
    intro s
    cases hw : f w <;> simp [sendLoop, hw, ih]

theorem sendLoop_user (f : Nat → Bool) (l : List Nat) :
    ∀ s : ConnectionManager,
      (sendLoop f s l).1.user_connections = s.user_connections := by
  induction l with
  | nil => intro s; simp [sendLoop]
  | cons w rest ih =>
    intro s
    cases hw : f w <;> simp [sendLoop, hw, ih]

theorem sendLoop_stats (f : Nat → Bool) (l : List Nat) :
    ∀ s : ConnectionManager,
      (sendLoop f s l).1.stats =
        { s.stats with messages_sent :=
            s.stats.messages_sent + (l.filter f).length } := by
  induction l with
  | nil => intro s; simp [sendLoop]
  | cons w rest ih =>
    intro s
    cases hw : f w with
    | false => simp [sendLoop, hw, List.filter_cons, ih]
    | true =>
      simp only [sendLoop, hw, if_true]
      rw [ih]
      simp [List.filter_cons, hw, Stats.mk.injEq]
      omega

theorem sendLoop_meta (f : Nat → Bool) (l : List Nat) :
    ∀ (s : ConnectionManager) (x : Nat),
      alookup (sendLoop f s l).1.connection_metadata x =
        match alookup s.connection_metadata x with
        | some m => some { m with message_count :=
            m.message_count + (l.filter f).count x }
        | none => none := by
  induction l with
  | nil =>
    intro s x
    cases hx : alookup s.connection_metadata x <;> simp [sendLoop, hx]
  | cons w rest ih =>
    intro s x
    cases hw : f w with
    | false =>
      have hst : (sendLoop f s (w :: rest)).1 = (sendLoop f s rest).1 := by
        simp [sendLoop, hw]
      rw [hst, ih]
      simp [List.filter_cons, hw]
    | true =>
      cases hmw : alookup s.connection_metadata w with
      | none =>
        have hst : (sendLoop f s (w :: rest)).1 =
            (sendLoop f { s with stats := { s.stats with messages_sent :=
              s.stats.messages_sent + 1 } } rest).1 := by
          simp [sendLoop, hw, hmw]
        rw [hst, ih]
        by_cases hx : x = w
        · subst hx
          simp [hmw, List.filter_cons, hw]
        · simp [List.filter_cons, hw, List.count_cons, hx]
      | some m =>
        have hst : (sendLoop f s (w :: rest)).1 =
            (sendLoop f { s with
              connection_metadata := aset s.connection_metadata w
                { m with message_count := m.message_count + 1 },
              stats := { s.stats with messages_sent :=
                s.stats.messages_sent + 1 } } rest).1 := by
          simp [sendLoop, hw, hmw]
        rw [hst, ih]
        by_cases hx : x = w
        · subst hx
          simp only [alookup_aset_self, hmw, List.filter_cons, hw, if_true,
            List.count_cons_self]
          simp [Metadata.mk.injEq]
          omega
        · have hne : alookup (aset s.connection_metadata w
              { m with message_count := m.message_count + 1 }) x =
              alookup s.connection_metadata x :=
            alookup_aset_ne _ _ _ _ hx
          simp only [hne]
          simp [List.filter_cons, hw, List.count_cons, hx]

theorem foldl_disconnect_meta (l : List Nat) :
    ∀ (s : ConnectionManager) (x : Nat),
      alookup ((l.foldl disconnect s)).connection_metadata x =
        if x ∈ l then none else alookup s.connection_metadata x := by
  induction l with
  | nil => intro s x; simp
  | cons w rest ih =>
    intro s x
    rw [List.foldl_cons, ih]
    by_cases hx : x ∈ rest
    · simp [hx]
    · by_cases hxw : x = w
      · subst hxw
        simp [hx, disconnect_meta]
      · simp [hx, hxw, disconnect_meta]

theorem foldl_disconnect_sent (l : List Nat) :
    ∀ s : ConnectionManager,
      ((l.foldl disconnect s)).stats.messages_sent = s.stats.messages_sent := by
  induction l with
  | nil => intro s; simp
  | cons w rest ih =>
    intro s
    rw [List.foldl_cons, ih]
    exact (disconnect_stats s w).2.2.1

theorem Inv_GoodState (s : ConnectionManager) (h : Inv s = true) : GoodState s := by
  have hsplit := h
  simp only [Inv, Bool.and_eq_true] at hsplit
  obtain ⟨⟨⟨hres, hown⟩, hmeta⟩, hkeys⟩ := hsplit
  refine ⟨?_, ?_, ?_, ?_⟩
  · intro p l hl
    have hmem := mem_of_alookup _ _ _ hl
    have he := (List.all_eq_true.mp hres) _ hmem
    simp only [Bool.and_eq_true] at he
    obtain ⟨⟨hne, hnd⟩, hall⟩ := he
    refine ⟨?_, of_decide_eq_true hnd, ?_⟩
    · intro hnil
      rw [hnil] at hne
      simp at hne
    · intro ws hws
      have hq := (List.all_eq_true.mp hall) ws hws
      unfold metaPondIs at hq
      cases hml : alookup s.connection_metadata ws with
      | none =>
        rw [hml] at hq
        simp at hq
      | some m =>
        rw [hml] at hq
        exact ⟨m, rfl, of_decide_eq_true hq⟩
  · intro u l hl
    have hmem := mem_of_alookup _ _ _ hl
    have he := (List.all_eq_true.mp hown) _ hmem
    simp only [Bool.and_eq_true] at he
    obtain ⟨⟨hne, hnd⟩, hall⟩ := he
    refine ⟨?_, of_decide_eq_true hnd, ?_⟩
    · intro hnil
      rw [hnil] at hne
      simp at hne
    · intro ws hws
      have hq := (List.all_eq_true.mp hall) ws hws
      unfold metaUserIs at hq
      cases hml : alookup s.connection_metadata ws with
      | none =>
        rw [hml] at hq
        simp at hq
      | some m =>
        rw [hml] at hq
        exact ⟨m, rfl, of_decide_eq_true hq⟩
  · intro ws m hml
    have hmem := mem_of_alookup _ _ _ hml
    have he := (List.all_eq_true.mp hmeta) _ hmem
    unfold metaEntryOk at he
    simp only [Bool.and_eq_true] at he
    obtain ⟨⟨⟨hp0, hu0⟩, hpl⟩, hul⟩ := he
    refine ⟨of_decide_eq_true hp0, of_decide_eq_true hu0, ?_, ?_⟩
    · cases hb : alookup s.active_connections m.pond_id with
      | none =>
        rw [hb] at hpl
        simp at hpl
      | some l =>
        rw [hb] at hpl
        exact ⟨l, rfl, of_decide_eq_true hpl⟩
    · intro u hu
      rw [hu] at hul
      replace hul : (match alookup s.user_connections u with
          | some l => decide (ws ∈ l)
          | none => false) = true := hul
      cases hb : alookup s.user_connections u with
      | none =>
        rw [hb] at hul
        simp at hul
      | some l =>
        rw [hb] at hul
        exact ⟨l, rfl, of_decide_eq_true hul⟩
  · simp only [keysOk, Bool.and_eq_true] at hkeys
    exact ⟨of_decide_eq_true hkeys.1.1, of_decide_eq_true hkeys.1.2,
      of_decide_eq_true hkeys.2⟩

theorem disconnect_keys (s : ConnectionManager) (ws : Nat) (hk : KInv s) :
    KInv (disconnect s ws) := by
  obtain ⟨ha, hu, hm⟩ := hk
  cases hmd : alookup s.connection_metadata ws with
  | none =>
    rw [disconnect_not_registered s ws hmd]
    exact ⟨ha, hu, hm⟩
  | some m =>
    refine ⟨?_, ?_, ?_⟩
    · by_cases hp : m.pond_id ≠ 0
      · cases halk : alookup s.active_connections m.pond_id with
        | none =>
          have hfix : (disconnect s ws).active_connections = s.active_connections := by
            simp [disconnect, hmd, hp, halk]
          rw [hfix]
          exact ha
        | some b =>
          by_cases hb2 : sdiscard b ws = []
          · have hfix : (disconnect s ws).active_connections =
                adel s.active_connections m.pond_id := by
              simp [disconnect, hmd, hp, halk, hb2]
            rw [hfix]
            exact adel_keys_nodup _ _ ha
          · have hfix : (disconnect s ws).active_connections =
                aset s.active_connections m.pond_id (sdiscard b ws) := by
              simp [disconnect, hmd, hp, halk, hb2]
            rw [hfix]
            exact aset_keys_nodup _ _ _ ha
      · have hfix : (disconnect s ws).active_connections = s.active_connections := by
          simp [disconnect, hmd, hp]
        rw [hfix]
        exact ha
    · cases hus : m.user_id with
      | none =>
        have hfix : (disconnect s ws).user_connections = s.user_connections := by
          simp [disconnect, hmd, hus]
        rw [hfix]
        exact hu
      | some u0 =>
        by_cases hz : u0 ≠ 0
        · cases hul : alookup s.user_connections u0 with
          | none =>
            have hfix : (disconnect s ws).user_connections = s.user_connections := by
              simp [disconnect, hmd, hus, hz, hul]
            rw [hfix]
            exact hu
          | some b =>
            by_cases hb2 : sdiscard b ws = []
            · have hfix : (disconnect s ws).user_connections =
                  adel s.user_connections u0 := by
                simp [disconnect, hmd, hus, hz, hul, hb2]
              rw [hfix]
              exact adel_keys_nodup _ _ hu
            · have hfix : (disconnect s ws).user_connections =
                  aset s.user_connections u0 (sdiscard b ws) := by
                simp [disconnect, hmd, hus, hz, hul, hb2]
              rw [hfix]
              exact aset_keys_nodup _ _ _ hu
        · have hfix : (disconnect s ws).user_connections = s.user_connections := by
            simp [disconnect, hmd, hus, hz]
          rw [hfix]
          exact hu
    · have hfix : (disconnect s ws).connection_metadata =
          adel s.connection_metadata ws := by
        simp [disconnect, hmd]
      rw [hfix]
      exact adel_keys_nodup _ _ hm

theorem disconnect_active_some (s : ConnectionManager) (ws : Nat) (m : Metadata)
    (hmd : alookup s.connection_metadata ws = some m) (q : Int) :
    alookup (disconnect s ws).active_connections q =
      if q = m.pond_id ∧ m.pond_id ≠ 0 then
        (match alookup s.active_connections m.pond_id with
         | some b => if sdiscard b ws = [] then none else some (sdiscard b ws)
         | none => none)
      else alookup s.active_connections q := by
  rw [disconnect_active, hmd]

theorem disconnect_user_some (s : ConnectionManager) (ws : Nat) (m : Metadata)
    (u : Int) (hmd : alookup s.connection_metadata ws = some m)
    (hus : m.user_id = some u) (v : Int) :
    alookup (disconnect s ws).user_connections v =
      if v = u ∧ u ≠ 0 then
        (match alookup s.user_connections u with
         | some b => if sdiscard b ws = [] then none else some (sdiscard b ws)
         | none => none)
      else alookup s.user_connections v := by
  rw [disconnect_user, hmd]
  simp only [Option.some_bind, hus]

theorem disconnect_user_nouser (s : ConnectionManager) (ws : Nat) (m : Metadata)
    (hmd : alookup s.connection_metadata ws = some m)
    (hus : m.user_id = none) (v : Int) :
    alookup (disconnect s ws).user_connections v = alookup s.user_connections v := by
  rw [disconnect_user, hmd]
  simp only [Option.some_bind, hus]

theorem GoodState_disconnect (s : ConnectionManager) (hs : GoodState s) (ws : Nat) :
    GoodState (disconnect s ws) := by
  obtain ⟨hR, hO, hM, hK⟩ := hs
  cases hmd : alookup s.connection_metadata ws with
  | none =>
    rw [disconnect_not_registered s ws hmd]
    exact ⟨hR, hO, hM, hK⟩
  | some m =>
    obtain ⟨hp0, hu0, ⟨bucket, hbuck, hwb⟩, hub⟩ := hM ws m hmd
    refine ⟨?_, ?_, ?_, disconnect_keys s ws hK⟩
    · intro q l hl
      rw [disconnect_active_some s ws m hmd q] at hl
      by_cases hq : q = m.pond_id
      · subst hq
        rw [if_pos ⟨rfl, hp0⟩, hbuck] at hl
        replace hl : (if sdiscard bucket ws = [] then none
            else some (sdiscard bucket ws)) = some l := hl
        by_cases hb2 : sdiscard bucket ws = []
        · rw [if_pos hb2] at hl
          exact absurd hl (by simp)
        · rw [if_neg hb2] at hl
          have hleq : sdiscard bucket ws = l := Option.some.inj hl
          obtain ⟨hbne, hbnd, hbmem⟩ := hR m.pond_id bucket hbuck
          subst hleq
          refine ⟨hb2, sdiscard_nodup _ _ hbnd, ?_⟩
          intro x hx
          obtain ⟨hxb, hxne⟩ := (mem_sdiscard _ _ _).mp hx
          obtain ⟨m2, hm2, hm2p⟩ := hbmem x hxb
          refine ⟨m2, ?_, hm2p⟩
          rw [disconnect_meta, if_neg hxne]
          exact hm2
      · rw [if_neg (by intro hc; exact hq hc.1)] at hl
        obtain ⟨hbne, hbnd, hbmem⟩ := hR q l hl
        refine ⟨hbne, hbnd, ?_⟩
        intro x hx
        obtain ⟨m2, hm2, hm2p⟩ := hbmem x hx
        have hxne : x ≠ ws := by
          intro hxw
          rw [hxw, hmd] at hm2
          have hmm : m = m2 := Option.some.inj hm2
          rw [← hmm] at hm2p
          exact hq hm2p.symm
        refine ⟨m2, ?_, hm2p⟩
        rw [disconnect_meta, if_neg hxne]
        exact hm2
    · intro v l hl
      cases hus : m.user_id with
      | none =>
        rw [disconnect_user_nouser s ws m hmd hus v] at hl
        obtain ⟨hbne, hbnd, hbmem⟩ := hO v l hl
        refine ⟨hbne, hbnd, ?_⟩
        intro x hx
        obtain ⟨m2, hm2, hm2u⟩ := hbmem x hx
        have hxne : x ≠ ws := by
          intro hxw
          rw [hxw, hmd] at hm2
          have hmm : m = m2 := Option.some.inj hm2
          rw [← hmm] at hm2u
          rw [hus] at hm2u
          exact Option.noConfusion hm2u
        refine ⟨m2, ?_, hm2u⟩
        rw [disconnect_meta, if_neg hxne]
        exact hm2
      | some u0 =>
        have hz : u0 ≠ 0 := by
          intro h0
          rw [h0] at hus
          exact hu0 hus
        rw [disconnect_user_some s ws m u0 hmd hus v] at hl
        by_cases hv : v = u0
        · subst hv
          rw [if_pos ⟨rfl, hz⟩] at hl
          obtain ⟨ub, hubuck, hwub⟩ := hub v hus
          rw [hubuck] at hl
          replace hl : (if sdiscard ub ws = [] then none
              else some (sdiscard ub ws)) = some l := hl
          by_cases hb2 : sdiscard ub ws = []
          · rw [if_pos hb2] at hl
            exact absurd hl (by simp)
          · rw [if_neg hb2] at hl
            have hleq : sdiscard ub ws = l := Option.some.inj hl
            obtain ⟨hbne, hbnd, hbmem⟩ := hO v ub hubuck
            subst hleq
            refine ⟨hb2, sdiscard_nodup _ _ hbnd, ?_⟩
            intro x hx
            obtain ⟨hxb, hxne⟩ := (mem_sdiscard _ _ _).mp hx
            obtain ⟨m2, hm2, hm2u⟩ := hbmem x hxb
            refine ⟨m2, ?_, hm2u⟩
            rw [disconnect_meta, if_neg hxne]
            exact hm2
        · rw [if_neg (by intro hc; exact hv hc.1)] at hl
          obtain ⟨hbne, hbnd, hbmem⟩ := hO v l hl
          refine ⟨hbne, hbnd, ?_⟩
          intro x hx
          obtain ⟨m2, hm2, hm2u⟩ := hbmem x hx
          have hxne : x ≠ ws := by
            intro hxw
            rw [hxw, hmd] at hm2
            have hmm : m = m2 := Option.some.inj hm2
            rw [← hmm] at hm2u
            rw [hus] at hm2u
            exact hv (Option.some.inj hm2u).symm
          refine ⟨m2, ?_, hm2u⟩
          rw [disconnect_meta, if_neg hxne]
          exact hm2
    · intro x m2 hml2
      rw [disconnect_meta] at hml2
      by_cases hx : x = ws
      · rw [if_pos hx] at hml2
        exact Option.noConfusion hml2
      · rw [if_neg hx] at hml2
        obtain ⟨hp2, hu2, ⟨l, hal, hxl⟩, hub2⟩ := hM x m2 hml2
        refine ⟨hp2, hu2, ?_, ?_⟩
        · rw [disconnect_active_some s ws m hmd m2.pond_id]
          by_cases hqp : m2.pond_id = m.pond_id
          · rw [if_pos ⟨hqp, hp0⟩]
            rw [hqp] at hal
            have hlb : l = bucket := by
              rw [hal] at hbuck
              exact Option.some.inj hbuck
            subst hlb
            rw [hbuck]
            have hxs : x ∈ sdiscard l ws := (mem_sdiscard _ _ _).mpr ⟨hxl, hx⟩
            by_cases hb2 : sdiscard l ws = []
            · rw [hb2] at hxs
              exact absurd hxs (by simp)
            · exact ⟨_, if_neg hb2, hxs⟩
          · rw [if_neg (by intro hc; exact hqp hc.1)]
            exact ⟨l, hal, hxl⟩
        · intro u hu2e
          obtain ⟨l2, hul2, hxl2⟩ := hub2 u hu2e
          cases hus : m.user_id with
          | none =>
            rw [disconnect_user_nouser s ws m hmd hus u]
            exact ⟨l2, hul2, hxl2⟩
          | some u0 =>
            have hz : u0 ≠ 0 := by
              intro h0
              rw [h0] at hus
              exact hu0 hus
            rw [disconnect_user_some s ws m u0 hmd hus u]
            by_cases huu : u = u0
            · rw [if_pos ⟨huu, hz⟩]
              obtain ⟨ub, hubuck, hwub⟩ := hub u0 hus
              rw [huu] at hul2
              have hlb : l2 = ub := by
                rw [hul2] at hubuck
                exact Option.some.inj hubuck
              subst hlb
              rw [hubuck]
              have hxs : x ∈ sdiscard l2 ws := (mem_sdiscard _ _ _).mpr ⟨hxl2, hx⟩
              by_cases hb2 : sdiscard l2 ws = []
              · rw [hb2] at hxs
                exact absurd hxs (by simp)
              · exact ⟨_, if_neg hb2, hxs⟩
            · rw [if_neg (by intro hc; exact huu hc.1)]
              exact ⟨l2, hul2, hxl2⟩

theorem connect_refused (s : ConnectionManager) (ws : Nat) (p : Int)
    (u : Option Int) (now : Int) (w : Bool) :
    connect s ws p u now false w = (s, true) := rfl

theorem connect_raises (s : ConnectionManager) (ws : Nat) (p : Int)
    (u : Option Int) (now : Int) (w : Bool) :
    (connect s ws p u now true w).2 = !w := rfl

theorem connect_active_lookup (s : ConnectionManager) (ws : Nat) (p : Int)
    (u : Option Int) (now : Int) (w : Bool) (q : Int) :
    alookup (connect s ws p u now true w).1.active_connections q =
      if q = p then some (sadd ((alookup s.active_connections p).getD []) ws)
      else alookup s.active_connections q := by
  cases hfirst : alookup s.active_connections p with
  | none =>
    have hfix : (connect s ws p u now true w).1.active_connections =
        aset (aset s.active_connections p [])
          p (sadd ((alookup (aset s.active_connections p []) p).getD []) ws) := by
      simp [connect, hfirst]
    rw [hfix, alookup_aset_self]
    by_cases hq : q = p
    · subst hq
      rw [if_pos rfl, alookup_aset_self]
      simp
    · rw [if_neg hq, alookup_aset_ne _ _ _ _ hq, alookup_aset_ne _ _ _ _ hq]
  | some b =>
    have hfix : (connect s ws p u now true w).1.active_connections =
        aset s.active_connections p
          (sadd ((alookup s.active_connections p).getD []) ws) := by
      simp [connect, hfirst]
    rw [hfix]
    by_cases hq : q = p
    · subst hq
      rw [if_pos rfl, alookup_aset_self, hfirst]
    · rw [if_neg hq, alookup_aset_ne _ _ _ _ hq]

theorem connect_user_lookup_none (s : ConnectionManager) (ws : Nat) (p : Int)
    (now : Int) (w : Bool) (v : Int) :
    alookup (connect s ws p none now true w).1.user_connections v =
      alookup s.user_connections v := by
  have hfix : (connect s ws p none now true w).1.user_connections =
      s.user_connections := by
    simp [connect]
  rw [hfix]

theorem connect_user_lookup_some (s : ConnectionManager) (ws : Nat) (p : Int)
    (u0 : Int) (now : Int) (w : Bool) (v : Int) :
    alookup (connect s ws p (some u0) now true w).1.user_connections v =
      if u0 ≠ 0 ∧ v = u0 then
        some (sadd ((alookup s.user_connections u0).getD []) ws)
      else alookup s.user_connections v := by
  by_cases hz : u0 ≠ 0
  · cases hfirst : alookup s.user_connections u0 with
    | none =>
      have hfix : (connect s ws p (some u0) now true w).1.user_connections =
          aset (aset s.user_connections u0 [])
            u0 (sadd ((alookup (aset s.user_connections u0 []) u0).getD []) ws) := by
        simp [connect, hz, hfirst]
      rw [hfix, alookup_aset_self]
      by_cases hv : v = u0
      · subst hv
        rw [if_pos ⟨hz, rfl⟩, alookup_aset_self]
        simp
      · rw [if_neg (by intro hc; exact hv hc.2),
          alookup_aset_ne _ _ _ _ hv, alookup_aset_ne _ _ _ _ hv]
    | some b =>
      have hfix : (connect s ws p (some u0) now true w).1.user_connections =
          aset s.user_connections u0
            (sadd ((alookup s.user_connections u0).getD []) ws) := by
        simp [connect, hz, hfirst]
      rw [hfix]
      by_cases hv : v = u0
      · subst hv
        rw [if_pos ⟨hz, rfl⟩, alookup_aset_self, hfirst]
      · rw [if_neg (by intro hc; exact hv hc.2), alookup_aset_ne _ _ _ _ hv]
  · have hfix : (connect s ws p (some u0) now true w).1.user_connections =
        s.user_connections := by
      simp [connect, hz]
    rw [hfix]
    simp at hz
    rw [if_neg (by intro hc; exact hc.1 hz)]

theorem connect_meta_lookup (s : ConnectionManager) (ws : Nat) (p : Int)
    (u : Option Int) (now : Int) (w : Bool) (x : Nat) :
    alookup (connect s ws p u now true w).1.connection_metadata x =
      if x = ws then
        some { pond_id := p, user_id := u, connected_at := now,
               status := ConnectionStatus.connected, last_heartbeat := now,
               message_count := 0 }
      else alookup s.connection_metadata x := by
  have hfix : (connect s ws p u now true w).1.connection_metadata =
      aset s.connection_metadata ws
        { pond_id := p, user_id := u, connected_at := now,
          status := ConnectionStatus.connected, last_heartbeat := now,
          message_count := 0 } := by
    simp [connect]
  rw [hfix]
  by_cases hx : x = ws
  · subst hx
    rw [if_pos rfl, alookup_aset_self]
  · rw [if_neg hx, alookup_aset_ne _ _ _ _ hx]

theorem connect_stats (s : ConnectionManager) (ws : Nat) (p : Int)
    (u : Option Int) (now : Int) (w : Bool) :
    (connect s ws p u now true w).1.stats.total_connections =
      s.stats.total_connections + 1 ∧
    (connect s ws p u now true w).1.stats.active_connections =
      s.stats.active_connections + 1 ∧
    (connect s ws p u now true w).1.stats.messages_sent =
      s.stats.messages_sent ∧
    (connect s ws p u now true w).1.stats.messages_received =
      s.stats.messages_received := by
  refine ⟨rfl, rfl, rfl, rfl⟩

theorem connect_keys (s : ConnectionManager) (ws : Nat) (p : Int)
    (u : Option Int) (now : Int) (w : Bool) (hk : KInv s) :
    KInv (connect s ws p u now true w).1 := by
  obtain ⟨ha, hu, hm⟩ := hk
  refine ⟨?_, ?_, ?_⟩
  · cases hfirst : alookup s.active_connections p with
    | none =>
      have hfix : (connect s ws p u now true w).1.active_connections =
          aset (aset s.active_connections p [])
            p (sadd ((alookup (aset s.active_connections p []) p).getD []) ws) := by
        simp [connect, hfirst]
      rw [hfix]
      exact aset_keys_nodup _ _ _ (aset_keys_nodup _ _ _ ha)
    | some b =>
      have hfix : (connect s ws p u now true w).1.active_connections =
          aset s.active_connections p
            (sadd ((alookup s.active_connections p).getD []) ws) := by
        simp [connect, hfirst]
      rw [hfix]
      exact aset_keys_nodup _ _ _ ha
  · cases u with
    | none =>
      have hfix : (connect s ws p none now true w).1.user_connections =
          s.user_connections := by
        simp [connect]
      rw [hfix]
      exact hu
    | some u0 =>
      by_cases hz : u0 ≠ 0
      · cases hfirst : alookup s.user_connections u0 with
        | none =>
          have hfix : (connect s ws p (some u0) now true w).1.user_connections =
              aset (aset s.user_connections u0 []) u0
                (sadd ((alookup (aset s.user_connections u0 []) u0).getD []) ws) := by
            simp [connect, hz, hfirst]
          rw [hfix]
          exact aset_keys_nodup _ _ _ (aset_keys_nodup _ _ _ hu)
        | some b =>
          have hfix : (connect s ws p (some u0) now true w).1.user_connections =
              aset s.user_connections u0
                (sadd ((alookup s.user_connections u0).getD []) ws) := by
            simp [connect, hz, hfirst]
          rw [hfix]
          exact aset_keys_nodup _ _ _ hu
      · have hfix : (connect s ws p (some u0) now true w).1.user_connections =
            s.user_connections := by
          simp [connect, hz]
        rw [hfix]
        exact hu
  · have hfix : (connect s ws p u now true w).1.connection_metadata =
        aset s.connection_metadata ws
          { pond_id := p, user_id := u, connected_at := now,
            status := ConnectionStatus.connected, last_heartbeat := now,
            message_count := 0 } := by
      simp [connect]
    rw [hfix]
    exact aset_keys_nodup _ _ _ hm

theorem GoodState_connect (s : ConnectionManager) (hs : GoodState s) (ws : Nat)
    (p : Int) (u : Option Int) (now : Int) (w : Bool)
    (hfresh : alookup s.connection_metadata ws = none)
    (hp : p ≠ 0) (hu : u ≠ some 0) :
    GoodState (connect s ws p u now true w).1 := by
  obtain ⟨hR, hO, hM, hK⟩ := hs
  have hbnd : ((alookup s.active_connections p).getD []).Nodup := by
    cases hb : alookup s.active_connections p with
    | none => simp
    | some b => simpa using (hR p b hb).2.1
  have hbm : ∀ x ∈ (alookup s.active_connections p).getD [],
      ∃ m2, alookup s.connection_metadata x = some m2 ∧ m2.pond_id = p := by
    cases hb : alookup s.active_connections p with
    | none => simp
    | some b =>
      intro x hx
      exact (hR p b hb).2.2 x (by simpa using hx)
  refine ⟨?_, ?_, ?_, connect_keys s ws p u now w hK⟩
  · intro q l hl
    rw [connect_active_lookup] at hl
    by_cases hq : q = p
    · subst hq
      rw [if_pos rfl] at hl
      have hl2 : sadd ((alookup s.active_connections q).getD []) ws = l :=
        Option.some.inj hl
      refine ⟨by rw [← hl2]; exact sadd_ne_nil _ _, by rw [← hl2]; exact sadd_nodup _ _ hbnd, ?_⟩
      intro x hx
      rw [← hl2] at hx
      rcases (mem_sadd _ _ _).mp hx with hxw | hxb
      · subst hxw
        have hwm := connect_meta_lookup s x q u now w x
        rw [if_pos rfl] at hwm
        exact ⟨_, hwm, rfl⟩
      · obtain ⟨m2, hm2, hm2p⟩ := hbm x hxb
        have hxne : x ≠ ws := by
          intro hxw
          rw [hxw, hfresh] at hm2
          exact Option.noConfusion hm2
        refine ⟨m2, ?_, hm2p⟩
        rw [connect_meta_lookup, if_neg hxne]
        exact hm2
    · rw [if_neg hq] at hl
      obtain ⟨hbne, hbnd2, hbmem⟩ := hR q l hl
      refine ⟨hbne, hbnd2, ?_⟩
      intro x hx
      obtain ⟨m2, hm2, hm2p⟩ := hbmem x hx
      have hxne : x ≠ ws := by
        intro hxw
        rw [hxw, hfresh] at hm2
        exact Option.noConfusion hm2
      refine ⟨m2, ?_, hm2p⟩
      rw [connect_meta_lookup, if_neg hxne]
      exact hm2
  · intro v l hl
    cases u with
    | none =>
      rw [connect_user_lookup_none] at hl
      obtain ⟨hbne, hbnd2, hbmem⟩ := hO v l hl
      refine ⟨hbne, hbnd2, ?_⟩
      intro x hx
      obtain ⟨m2, hm2, hm2u⟩ := hbmem x hx
      have hxne : x ≠ ws := by
        intro hxw
        rw [hxw, hfresh] at hm2
        exact Option.noConfusion hm2
      refine ⟨m2, ?_, hm2u⟩
      rw [connect_meta_lookup, if_neg hxne]
      exact hm2
    | some u0 =>
      have hz : u0 ≠ 0 := by
        intro h0
        rw [h0] at hu
        exact hu rfl
      have hund : ((alookup s.user_connections u0).getD []).Nodup := by
        cases hb : alookup s.user_connections u0 with
        | none => simp
        | some b => simpa using (hO u0 b hb).2.1
      have hum : ∀ x ∈ (alookup s.user_connections u0).getD [],
          ∃ m2, alookup s.connection_metadata x = some m2 ∧
            m2.user_id = some u0 := by
        cases hb : alookup s.user_connections u0 with
        | none => simp
        | some b =>
          intro x hx
          exact (hO u0 b hb).2.2 x (by simpa using hx)
      rw [connect_user_lookup_some] at hl
      by_cases hv : v = u0
      · subst hv
        rw [if_pos ⟨hz, rfl⟩] at hl
        have hl2 : sadd ((alookup s.user_connections v).getD []) ws = l :=
          Option.some.inj hl
        refine ⟨by rw [← hl2]; exact sadd_ne_nil _ _,
          by rw [← hl2]; exact sadd_nodup _ _ hund, ?_⟩
        intro x hx
        rw [← hl2] at hx
        rcases (mem_sadd _ _ _).mp hx with hxw | hxb
        · subst hxw
          have hwm := connect_meta_lookup s x p (some v) now w x
          rw [if_pos rfl] at hwm
          exact ⟨_, hwm, rfl⟩
        · obtain ⟨m2, hm2, hm2u⟩ := hum x hxb
          have hxne : x ≠ ws := by
            intro hxw
            rw [hxw, hfresh] at hm2
            exact Option.noConfusion hm2
          refine ⟨m2, ?_, hm2u⟩
          rw [connect_meta_lookup, if_neg hxne]
          exact hm2
      · rw [if_neg (by intro hc; exact hv hc.2)] at hl
        obtain ⟨hbne, hbnd2, hbmem⟩ := hO v l hl
        refine ⟨hbne, hbnd2, ?_⟩
        intro x hx
        obtain ⟨m2, hm2, hm2u⟩ := hbmem x hx
        have hxne : x ≠ ws := by
          intro hxw
          rw [hxw, hfresh] at hm2
          exact Option.noConfusion hm2
        refine ⟨m2, ?_, hm2u⟩
        rw [connect_meta_lookup, if_neg hxne]
        exact hm2
  · intro x m2 hm2
    rw [connect_meta_lookup] at hm2
    by_cases hx : x = ws
    · rw [if_pos hx] at hm2
      subst hx
      have hm2e := (Option.some.inj hm2).symm
      subst hm2e
      refine ⟨hp, hu, ?_, ?_⟩
      · have hal := connect_active_lookup s x p u now w p
        rw [if_pos rfl] at hal
        exact ⟨_, hal, (mem_sadd _ _ _).mpr (Or.inl rfl)⟩
      · intro u1 hu1
        replace hu1 : u = some u1 := hu1
        cases u with
        | none => exact Option.noConfusion hu1
        | some u0 =>
          have hu01 : u0 = u1 := Option.some.inj hu1
          subst hu01
          have hz : u0 ≠ 0 := by
            intro h0
            rw [h0] at hu
            exact hu rfl
          have hul := connect_user_lookup_some s x p u0 now w u0
          rw [if_pos ⟨hz, rfl⟩] at hul
          exact ⟨_, hul, (mem_sadd _ _ _).mpr (Or.inl rfl)⟩
    · rw [if_neg hx] at hm2
      obtain ⟨hp2, hu2, ⟨l, hal, hxl⟩, hub2⟩ := hM x m2 hm2
      refine ⟨hp2, hu2, ?_, ?_⟩
      · rw [connect_active_lookup]
        by_cases hqp : m2.pond_id = p
        · rw [if_pos hqp]
          refine ⟨_, rfl, ?_⟩
          rw [hqp] at hal
          rw [hal]
          exact (mem_sadd _ _ _).mpr (Or.inr (by simpa using hxl))
        · rw [if_neg hqp]
          exact ⟨l, hal, hxl⟩
      · intro u1 hu1
        obtain ⟨l2, hul2, hxl2⟩ := hub2 u1 hu1
        cases u with
        | none =>
          rw [connect_user_lookup_none]
          exact ⟨l2, hul2, hxl2⟩
        | some u0 =>
          rw [connect_user_lookup_some]
          by_cases huv : u0 ≠ 0 ∧ u1 = u0
          · rw [if_pos huv]
            refine ⟨_, rfl, ?_⟩
            rw [huv.2] at hul2
            rw [hul2]
            exact (mem_sadd _ _ _).mpr (Or.inr (by simpa using hxl2))
          · rw [if_neg huv]
            exact ⟨l2, hul2, hxl2⟩

theorem GoodState_init : GoodState initManager := by
  refine ⟨?_, ?_, ?_, ?_, ?_, ?_⟩
  · intro p l hl
    simp [initManager, alookup] at hl
  · intro u l hl
    simp [initManager, alookup] at hl
  · intro ws m hml
    simp [initManager, alookup] at hml
  · simp [initManager]
  · simp [initManager]
  · simp [initManager]

theorem GoodState_applyOp (s : ConnectionManager) (op : Op) (hs : GoodState s)
    (hv : validOp s op = true) : GoodState (applyOp s op) := by
  cases op with
  | connect ws p u now acceptOk welcomeOk =>
    cases acceptOk with
    | false =>
      have hfix : applyOp s (Op.connect ws p u now false welcomeOk) = s := by
        simp [applyOp, connect_refused]
      rw [hfix]
      exact hs
    | true =>
      simp only [validOp, Bool.not_true, Bool.false_or, Bool.and_eq_true,
        Option.isNone_iff_eq_none, decide_eq_true_eq] at hv
      exact GoodState_connect s hs ws p u now welcomeOk hv.1.1 hv.1.2 hv.2
  | disconnect ws => exact GoodState_disconnect s hs ws

theorem GoodState_runOps (ops : List Op) :
    ∀ s : ConnectionManager, GoodState s → validTrace s ops = true →
      GoodState (runOps s ops) := by
  induction ops with
  | nil =>
    intro s hs _
    exact hs
  | cons op rest ih =>
    intro s hs hv
    simp only [validTrace, Bool.and_eq_true] at hv
    exact ih (applyOp s op) (GoodState_applyOp s op hs hv.1) hv.2

theorem sum_map_const_zero {κ : Type} (ks : List κ) :
    (ks.map (fun _ => (0 : Nat))).sum = 0 := by
  induction ks with
  | nil => simp
  | cons k rest ih => simp [ih]

theorem sum_map_add_distrib {κ : Type} (ks : List κ) (f g : κ → Nat) :
    (ks.map (fun k => f k + g k)).sum = (ks.map f).sum + (ks.map g).sum := by
  induction ks with
  | nil => simp
  | cons k rest ih =>
    simp [ih]
    omega

theorem sum_map_indicator_zero {κ : Type} [DecidableEq κ] (ks : List κ) (a : κ)
    (ha : a ∉ ks) : (ks.map (fun k => if a = k then (1 : Nat) else 0)).sum = 0 := by
  induction ks with
  | nil => simp
  | cons k rest ih =>
    simp only [List.mem_cons] at ha
    push_neg at ha
    simp [ha.1, ih ha.2]

theorem sum_map_indicator {κ : Type} [DecidableEq κ] (ks : List κ) (a : κ)
    (hnd : ks.Nodup) (ha : a ∈ ks) :
    (ks.map (fun k => if a = k then (1 : Nat) else 0)).sum = 1 := by
  induction ks with
  | nil => simp at ha
  | cons k rest ih =>
    rw [List.nodup_cons] at hnd
    rcases List.mem_cons.mp ha with h1 | h1
    · subst h1
      have hnr : a ∉ rest := hnd.1
      simp [sum_map_indicator_zero rest a hnr]
    · have hak : a ≠ k := by
        intro h
        rw [h] at h1
        exact hnd.1 h1
      simp [hak, ih hnd.2 h1]

theorem sum_fiber_lengths {κ E : Type} [DecidableEq κ] (g : E → κ)
    (xs : List E) (ks : List κ) (hnd : ks.Nodup)
    (hcov : ∀ e ∈ xs, g e ∈ ks) :
    (ks.map (fun k => (xs.filter (fun e => decide (g e = k))).length)).sum =
      xs.length := by
  induction xs with
  | nil => simp [sum_map_const_zero]
  | cons e rest ih =>
    have hcov2 : ∀ x ∈ rest, g x ∈ ks := fun x hx =>
      hcov x (List.mem_cons_of_mem _ hx)
    have hstep : ∀ k ∈ ks,
        ((e :: rest).filter (fun x => decide (g x = k))).length =
          (if g e = k then 1 else 0) +
            (rest.filter (fun x => decide (g x = k))).length := by
      intro k _
      by_cases h : g e = k
      · simp [List.filter_cons, h]
        omega
      · simp [List.filter_cons, h]
    calc (ks.map (fun k =>
            ((e :: rest).filter (fun x => decide (g x = k))).length)).sum
        = (ks.map (fun k => (if g e = k then 1 else 0) +
            (rest.filter (fun x => decide (g x = k))).length)).sum := by
          rw [List.map_congr_left hstep]
      _ = (ks.map (fun k => if g e = k then 1 else 0)).sum +
            (ks.map (fun k =>
              (rest.filter (fun x => decide (g x = k))).length)).sum :=
          sum_map_add_distrib ks _ _
      _ = 1 + rest.length := by
          rw [ih hcov2, sum_map_indicator ks (g e) hnd
            (hcov e (List.mem_cons_self _ _))]
      _ = (e :: rest).length := by
          simp [List.length_cons]
          omega

theorem bucket_length_eq (s : ConnectionManager) (hs : GoodState s) (p : Int)
    (l : List Nat) (hl : alookup s.active_connections p = some l) :
    l.length = (s.connection_metadata.filter
      (fun e => decide (e.2.pond_id = p))).length := by
  obtain ⟨hR, hO, hM, hK⟩ := hs
  have hnd1 : l.Nodup := (hR p l hl).2.1
  have hnd2 : ((s.connection_metadata.filter
      (fun e => decide (e.2.pond_id = p))).map Prod.fst).Nodup :=
    hK.2.2.sublist ((List.filter_sublist _).map Prod.fst)
  have hperm : l.Perm ((s.connection_metadata.filter
      (fun e => decide (e.2.pond_id = p))).map Prod.fst) := by
    rw [List.perm_ext_iff_of_nodup hnd1 hnd2]
    intro x
    constructor
    · intro hx
      obtain ⟨m, hm, hmp⟩ := (hR p l hl).2.2 x hx
      have hmem := mem_of_alookup _ _ _ hm
      refine List.mem_map.mpr ⟨(x, m), ?_, rfl⟩
      exact List.mem_filter.mpr ⟨hmem, by simpa using hmp⟩
    · intro hx
      obtain ⟨e, he, hex⟩ := List.mem_map.mp hx
      have hef := List.mem_filter.mp he
      have hep : e.2.pond_id = p := by simpa using hef.2
      have hal : alookup s.connection_metadata e.1 = some e.2 :=
        alookup_of_mem _ _ _ hK.2.2 hef.1
      obtain ⟨l2, hal2, hxl2⟩ := (hM e.1 e.2 hal).2.2.1
      rw [hep, hl] at hal2
      have hll : l = l2 := Option.some.inj hal2
      rw [← hex]
      rw [hll]
      exact hxl2
  have := hperm.length_eq
  rw [this, List.length_map]

theorem GoodState_sum (s : ConnectionManager) (hs : GoodState s) :
    sumBucketSizes s = s.connection_metadata.length := by
  obtain ⟨hR, hO, hM, hK⟩ := hs
  unfold sumBucketSizes
  have hmap : s.active_connections.map (fun e => e.2.length) =
      s.active_connections.map (fun e => (s.connection_metadata.filter
        (fun me => decide (me.2.pond_id = e.1))).length) := by
    apply List.map_congr_left
    intro e he
    have hal : alookup s.active_connections e.1 = some e.2 :=
      alookup_of_mem _ _ _ hK.1 he
    exact bucket_length_eq s ⟨hR, hO, hM, hK⟩ e.1 e.2 hal
  rw [hmap]
  have hcomp : s.active_connections.map (fun e => (s.connection_metadata.filter
      (fun me => decide (me.2.pond_id = e.1))).length) =
      (s.active_connections.map Prod.fst).map
        (fun k => (s.connection_metadata.filter
          (fun me => decide (me.2.pond_id = k))).length) := by
    rw [List.map_map]
    rfl
  rw [hcomp]
  apply sum_fiber_lengths (fun me => me.2.pond_id) s.connection_metadata _ hK.1
  intro e he
  have hal : alookup s.connection_metadata e.1 = some e.2 :=
    alookup_of_mem _ _ _ hK.2.2 he
  obtain ⟨l2, hal2, _⟩ := (hM e.1 e.2 hal).2.2.1
  have hmem := mem_of_alookup _ _ _ hal2
  exact List.mem_map.mpr ⟨(e.2.pond_id, l2), hmem, rfl⟩

theorem GoodState_IndexCoherent (s : ConnectionManager) (hs : GoodState s) :
    IndexCoherent s := by
  obtain ⟨hR, hO, hM, hK⟩ := hs
  refine ⟨?_, ?_, ?_, GoodState_sum s ⟨hR, hO, hM, hK⟩⟩
  · intro ws m hml
    obtain ⟨hp0, hu0, hbk, hub⟩ := hM ws m hml
    refine ⟨hbk, ?_, hub, ?_⟩
    · intro p l hal hwl
      obtain ⟨m2, hm2, hm2p⟩ := (hR p l hal).2.2 ws hwl
      rw [hml] at hm2
      have hmm : m = m2 := Option.some.inj hm2
      rw [hmm]
      exact hm2p.symm
    · intro u l hal hwl
      obtain ⟨m2, hm2, hm2u⟩ := (hO u l hal).2.2 ws hwl
      rw [hml] at hm2
      have hmm : m = m2 := Option.some.inj hm2
      rw [hmm]
      exact hm2u
  · intro p l hal
    exact (hR p l hal).1
  · intro u l hal
    exact (hO u l hal).1

theorem digit_isDigitCh : ∀ m : Nat, m < 10 → isDigitCh (Nat.digitChar m) = true := by
  decide

theorem digit_mod_isDigitCh (n : Nat) :
    isDigitCh (Nat.digitChar (n % 10)) = true :=
  digit_isDigitCh (n % 10) (Nat.mod_lt n (by decide))

theorem isoformat_iso8601 (t : PyDateTime) : isIso8601 (isoformat t) = true := by
  unfold isIso8601 isoformat pad4 pad2 pad6
  by_cases hms : t.microsecond = 0
  · simp only [hms, if_pos rfl, List.cons_append, List.nil_append, List.append_nil]
    simp [isIso8601Chars, digit_mod_isDigitCh]
  · simp only [if_neg hms, List.cons_append, List.nil_append]
    simp [isIso8601Chars, digit_mod_isDigitCh]

/-- Claim C1, counterexample: the wire record of a concrete message does
not carry the keys the claim lists; its fourth and fifth keys are
pond_id and user_id, not resource_id and owner_id. -/
theorem c1_counterexample :
    (WebSocketMessage.to_dict
      { message_type := MessageType.sensor_update, data := (0 : Nat),
        timestamp := { year := 2026, month := 10, day := 12, hour := 0,
                       minute := 0, second := 0, microsecond := 0 },
        pond_id := some 7, user_id := none }).map Prod.fst ≠
      ["type", "data", "timestamp", "resource_id", "owner_id"] := by
  decide

/-- Claim C1 (amended): for every message, to_dict is a flat record
whose keys are exactly type, data, timestamp, pond_id, user_id; the
type entry is one of the six kind strings, the timestamp entry is an
ISO-8601 string, and the pond_id/user_id entries are the optional
integer tags (null when absent). -/
theorem c1_amended_holds {D : Type} (m : WebSocketMessage D) :
    (m.to_dict.map Prod.fst =
      ["type", "data", "timestamp", "pond_id", "user_id"]) ∧
    alookup m.to_dict "type" = some (WireValue.str m.message_type.value) ∧
    m.message_type.value ∈ ["sensor_update", "pond_update", "system_alert",
      "heartbeat", "authentication", "error"] ∧
    alookup m.to_dict "timestamp" =
      some (WireValue.str (isoformat m.timestamp)) ∧
    isIso8601 (isoformat m.timestamp) = true ∧
    alookup m.to_dict "pond_id" = some (WireValue.intOrNull m.pond_id) ∧
    alookup m.to_dict "user_id" = some (WireValue.intOrNull m.user_id) := by
  refine ⟨rfl, rfl, ?_, rfl, isoformat_iso8601 m.timestamp, rfl, rfl⟩
  cases m.message_type <;> decide

/-- Claim C3, counterexample: in a reachable state with three live
connections, disconnecting channel 1 twice leaves a different state
(the active_connections counter drops again) than disconnecting it
once, so the two-call and one-call states are not equal. -/
theorem c3_counterexample :
    disconnect (disconnect broadcastState 1) 1 ≠ disconnect broadcastState 1 := by
  decide

/-- Claim C3 (amended): disconnect is idempotent on the registry and
both indices and the second call raises no error, but the
active_connections counter is decremented (floored at zero) by every
call, a second call included: the state after two calls equals the
state after one call except that the counter has been decremented
once more. -/
theorem c3_amended_holds (s : ConnectionManager) (ws : Nat) :
    disconnect (disconnect s ws) ws =
      { disconnect s ws with stats := { (disconnect s ws).stats with
          active_connections :=
            (disconnect s ws).stats.active_connections - 1 } } := by
  apply disconnect_not_registered
  rw [disconnect_meta]
  simp

/-- Claim C4, counterexample: with a transport whose accept succeeds
but whose welcome send fails, connect raises to its caller and the
connection is nevertheless registered, so connect is not atomic on
error and failures other than the accept step propagate. -/
theorem c4_counterexample :
    (connect initManager 1 7 none 0 true false).2 = true ∧
    alookup (connect initManager 1 7 none 0 true false).1.connection_metadata
      1 ≠ none := by
  refine ⟨rfl, ?_⟩
  decide

/-- Claim C4 (amended): connect propagates a failure when the
transport-accept step fails or when the welcome send fails.  When
accept fails the state is returned unchanged, so nothing was
registered and all counters are untouched; when accept succeeds the
connection is registered (with fresh metadata) whether or not the
welcome send then fails and re-raises. -/
theorem c4_amended_holds (s : ConnectionManager) (ws : Nat) (p : Int)
    (u : Option Int) (now : Int) (w : Bool) :
    connect s ws p u now false w = (s, true) ∧
    (connect s ws p u now true w).2 = !w ∧
    alookup (connect s ws p u now true w).1.connection_metadata ws =
      some { pond_id := p, user_id := u, connected_at := now,
             status := ConnectionStatus.connected, last_heartbeat := now,
             message_count := 0 } := by
  refine ⟨connect_refused s ws p u now w, connect_raises s ws p u now w, ?_⟩
  have h := connect_meta_lookup s ws p u now w ws
  rw [if_pos rfl] at h
  exact h

/-- Claim C2, counterexample: the claim quantifies over all integer
resource ids, but after connect(channel 1, resource 0) followed by
disconnect(channel 1) the resource index still holds channel 1 in
the bucket of resource 0 (the disconnect truthiness test skips id 0)
while the registry is empty, so the bucket sizes sum to 1 and the
number of live connections is 0. -/
theorem c2_counterexample :
    sumBucketSizes (runOps initManager c2CexOps) ≠
      (runOps initManager c2CexOps).connection_metadata.length := by
  decide

/-- Claim C2 (amended): after every finite sequence of
connect/disconnect calls in which each accepted connect carries a
nonzero resource id, a nonzero owner id when one is given, and a
channel not currently registered, every channel in the metadata map
sits in exactly the resource bucket matching its stored resource id
and, when it has an owner id, in exactly the matching owner bucket
and in no other bucket of either index; no bucket is empty; and the
resource bucket sizes sum to the number of live connections. -/
theorem c2_amended_holds (ops : List Op)
    (hv : validTrace initManager ops = true) :
    IndexCoherent (runOps initManager ops) :=
  GoodState_IndexCoherent _ (GoodState_runOps ops initManager GoodState_init hv)

theorem c2_witness :
    validTrace initManager c2WitnessOps = true ∧
    IndexCoherent (runOps initManager c2WitnessOps) :=
  ⟨by decide, c2_amended_holds c2WitnessOps (by decide)⟩

theorem GoodState_stats_only (s : ConnectionManager) (hs : GoodState s)
    (st : Stats) : GoodState { s with stats := st } := hs

theorem GoodState_bump (s : ConnectionManager) (hs : GoodState s) (w : Nat)
    (m : Metadata) (hm : alookup s.connection_metadata w = some m) (st : Stats) :
    GoodState
      { s with
        connection_metadata :=
          aset s.connection_metadata w
            { m with message_count := m.message_count + 1 },
        stats := st } := by
  obtain ⟨hR, hO, hM, hK⟩ := hs
  refine ⟨?_, ?_, ?_, hK.1, hK.2.1, aset_keys_nodup _ _ _ hK.2.2⟩
  · intro p l hl
    obtain ⟨hne, hnd, hmem⟩ := hR p l hl
    refine ⟨hne, hnd, ?_⟩
    intro x hx
    obtain ⟨m2, hm2, hm2p⟩ := hmem x hx
    by_cases hxw : x = w
    · subst hxw
      rw [hm] at hm2
      have hmm : m = m2 := Option.some.inj hm2
      refine ⟨{ m with message_count := m.message_count + 1 },
        alookup_aset_self _ _ _, ?_⟩
      show m.pond_id = p
      rw [hmm]
      exact hm2p
    · exact ⟨m2, by rw [alookup_aset_ne _ _ _ _ hxw]; exact hm2, hm2p⟩
  · intro v l hl
    obtain ⟨hne, hnd, hmem⟩ := hO v l hl
    refine ⟨hne, hnd, ?_⟩
    intro x hx
    obtain ⟨m2, hm2, hm2u⟩ := hmem x hx
    by_cases hxw : x = w
    · subst hxw
      rw [hm] at hm2
      have hmm : m = m2 := Option.some.inj hm2
      refine ⟨{ m with message_count := m.message_count + 1 },
        alookup_aset_self _ _ _, ?_⟩
      show m.user_id = some v
      rw [hmm]
      exact hm2u
    · exact ⟨m2, by rw [alookup_aset_ne _ _ _ _ hxw]; exact hm2, hm2u⟩
  · intro x m2 hm2
    by_cases hxw : x = w
    · subst hxw
      rw [alookup_aset_self] at hm2
      have hmm := (Option.some.inj hm2).symm
      subst hmm
      obtain ⟨hp0, hu0, ⟨l, hal, hxl⟩, hub⟩ := hM x m hm
      exact ⟨hp0, hu0, ⟨l, hal, hxl⟩, hub⟩
    · rw [alookup_aset_ne _ _ _ _ hxw] at hm2
      exact hM x m2 hm2

theorem GoodState_sendLoop (f : Nat → Bool) (l : List Nat) :
    ∀ s : ConnectionManager, GoodState s → GoodState (sendLoop f s l).1 := by
  induction l with
  | nil =>
    intro s hs
    exact hs
  | cons w rest ih =>
    intro s hs
    cases hw : f w with
    | false =>
      have hfix : (sendLoop f s (w :: rest)).1 = (sendLoop f s rest).1 := by
        simp [sendLoop, hw]
      rw [hfix]
      exact ih s hs
    | true =>
      cases hm : alookup s.connection_metadata w with
      | none =>
        have hfix : (sendLoop f s (w :: rest)).1 =
            (sendLoop f { s with stats := { s.stats with messages_sent :=
              s.stats.messages_sent + 1 } } rest).1 := by
          simp [sendLoop, hw, hm]
        rw [hfix]
        exact ih _ (GoodState_stats_only s hs _)
      | some m =>
        have hfix : (sendLoop f s (w :: rest)).1 =
            (sendLoop f
              { s with
                connection_metadata :=
                  aset s.connection_metadata w
                    { m with message_count := m.message_count + 1 },
                stats :=
                  { s.stats with
                    messages_sent := s.stats.messages_sent + 1 } } rest).1 := by
          simp [sendLoop, hw, hm]
        rw [hfix]
        exact ih _ (GoodState_bump s hs w m hm _)

theorem GoodState_foldl_disconnect (l : List Nat) :
    ∀ s : ConnectionManager, GoodState s → GoodState (l.foldl disconnect s) := by
  induction l with
  | nil =>
    intro s hs
    exact hs
  | cons w rest ih =>
    intro s hs
    rw [List.foldl_cons]
    exact ih _ (GoodState_disconnect s hs w)

theorem not_in_buckets (s : ConnectionManager) (hs : GoodState s) (ws : Nat)
    (hmd : alookup s.connection_metadata ws = none) :
    (∀ q l, alookup s.active_connections q = some l → ws ∉ l) ∧
    (∀ v l, alookup s.user_connections v = some l → ws ∉ l) := by
  obtain ⟨hR, hO, _, _⟩ := hs
  constructor
  · intro q l hl hin
    obtain ⟨m2, hm2, _⟩ := (hR q l hl).2.2 ws hin
    rw [hmd] at hm2
    exact Option.noConfusion hm2
  · intro v l hl hin
    obtain ⟨m2, hm2, _⟩ := (hO v l hl).2.2 ws hin
    rw [hmd] at hm2
    exact Option.noConfusion hm2

/-- Claim C5: broadcast to a resource whose bucket is the three
distinct channels a, b, c where only b's send raises still delivers
to a and c exactly once each and in order (no retry of b), raises
nothing (the model is a total function and every send outcome is
consumed locally), and ends with b removed from the registry and
from every bucket of both indices while a and c stay registered and
in the resource bucket. -/
theorem c5_broadcast_isolation (s : ConnectionManager) (p : Int) (msg : String)
    (f : Nat → Bool) (a b c : Nat) (hInv : Inv s = true)
    (hbuck : alookup s.active_connections p = some [a, b, c])
    (hab : a ≠ b) (_hac : a ≠ c) (hbc : b ≠ c)
    (hfa : f a = true) (hfb : f b = false) (hfc : f c = true) :
    (broadcast_to_pond s p msg f).2 = [a, c] ∧
    alookup (broadcast_to_pond s p msg f).1.connection_metadata b = none ∧
    (∀ q l, alookup (broadcast_to_pond s p msg f).1.active_connections q =
      some l → b ∉ l) ∧
    (∀ v l, alookup (broadcast_to_pond s p msg f).1.user_connections v =
      some l → b ∉ l) ∧
    (∃ m2, alookup (broadcast_to_pond s p msg f).1.connection_metadata a =
      some m2) ∧
    (∃ m2, alookup (broadcast_to_pond s p msg f).1.connection_metadata c =
      some m2) ∧
    (∃ l, alookup (broadcast_to_pond s p msg f).1.active_connections p =
      some l ∧ a ∈ l ∧ c ∈ l) := by
  have hgs := Inv_GoodState s hInv
  have hfilter : [a, b, c].filter f = [a, c] := by
    simp [List.filter_cons, hfa, hfb, hfc]
  have hdeadf : [a, b, c].filter (fun w => !(f w)) = [b] := by
    simp [List.filter_cons, hfa, hfb, hfc]
  have hr : broadcast_to_pond s p msg f =
      (disconnect (sendLoop f s [a, b, c]).1 b, [a, c]) := by
    simp only [broadcast_to_pond, hbuck]
    rw [sendLoop_dead f [a, b, c] s, sendLoop_delivered f [a, b, c] s,
      hdeadf, hfilter]
    rfl
  obtain ⟨ma, hma1, hma2⟩ := (hgs.1 p [a, b, c] hbuck).2.2 a (by simp)
  obtain ⟨mb, hmb1, hmb2⟩ := (hgs.1 p [a, b, c] hbuck).2.2 b (by simp)
  obtain ⟨mc, hmc1, hmc2⟩ := (hgs.1 p [a, b, c] hbuck).2.2 c (by simp)
  have hgs1 : GoodState (sendLoop f s [a, b, c]).1 :=
    GoodState_sendLoop f [a, b, c] s hgs
  have hcountb : ([a, c] : List Nat).count b = 0 := by
    simp [List.count_cons, Ne.symm hab, hbc]
  have hs1b : alookup (sendLoop f s [a, b, c]).1.connection_metadata b =
      some mb := by
    have h := sendLoop_meta f [a, b, c] s b
    rw [hmb1, hfilter, hcountb] at h
    exact h
  have hp0 : mb.pond_id ≠ 0 := (hgs.2.2.1 b mb hmb1).1
  have hgone : alookup (disconnect (sendLoop f s [a, b, c]).1 b).connection_metadata
      b = none := by
    rw [disconnect_meta]
    simp
  have hnob := not_in_buckets (disconnect (sendLoop f s [a, b, c]).1 b)
    (GoodState_disconnect _ hgs1 b) b hgone
  have hsd : sdiscard [a, b, c] b = [a, c] := by
    simp [sdiscard, hab, Ne.symm hbc]
  have hactive : alookup
      (disconnect (sendLoop f s [a, b, c]).1 b).active_connections p =
      some [a, c] := by
    rw [disconnect_active_some _ b mb hs1b p,
      if_pos ⟨hmb2.symm, hp0⟩]
    rw [hmb2, sendLoop_active f [a, b, c] s, hbuck]
    replace hsd2 : (if sdiscard [a, b, c] b = [] then none
        else some (sdiscard [a, b, c] b)) =
        (some [a, c] : Option (List Nat)) := by
      rw [hsd]
      simp
    exact hsd2
  rw [hr]
  refine ⟨rfl, hgone, hnob.1, hnob.2, ?_, ?_, ⟨[a, c], hactive, by simp, by simp⟩⟩
  · have h := sendLoop_meta f [a, b, c] s a
    rw [hma1] at h
    have h2 : alookup
        (disconnect (sendLoop f s [a, b, c]).1 b).connection_metadata a =
        some { ma with message_count :=
          ma.message_count + (List.filter f [a, b, c]).count a } := by
      rw [disconnect_meta, if_neg hab]
      exact h
    exact ⟨_, h2⟩
  · have h := sendLoop_meta f [a, b, c] s c
    rw [hmc1] at h
    have h2 : alookup
        (disconnect (sendLoop f s [a, b, c]).1 b).connection_metadata c =
        some { mc with message_count :=
          mc.message_count + (List.filter f [a, b, c]).count c } := by
      rw [disconnect_meta, if_neg (Ne.symm hbc)]
      exact h
    exact ⟨_, h2⟩

theorem c5_witness :
    Inv broadcastState = true ∧
    (broadcast_to_pond broadcastState 7 "m" (fun ws => decide (ws ≠ 2))).2 =
      [1, 3] ∧
    alookup (broadcast_to_pond broadcastState 7 "m"
      (fun ws => decide (ws ≠ 2))).1.connection_metadata 2 = none ∧
    (∃ l, alookup (broadcast_to_pond broadcastState 7 "m"
      (fun ws => decide (ws ≠ 2))).1.active_connections 7 = some l ∧
      1 ∈ l ∧ 3 ∈ l) := by
  have hInv : Inv broadcastState = true := by decide
  have h := c5_broadcast_isolation broadcastState 7 "m"
    (fun ws => decide (ws ≠ 2)) 1 2 3 hInv (by decide) (by decide) (by decide)
    (by decide) rfl rfl rfl
  exact ⟨hInv, h.1, h.2.1, h.2.2.2.2.2.2⟩

/-- Claim C6: in a broadcast to a resource bucket, each successful
send adds exactly one to the global messages_sent counter (so the
final counter is the old one plus the number of successful sends)
and exactly one to the recipient's message_count, the recipient
staying registered. -/
theorem c6_broadcast_counters (s : ConnectionManager) (p : Int) (msg : String)
    (f : Nat → Bool) (bucket : List Nat) (hInv : Inv s = true)
    (hbuck : alookup s.active_connections p = some bucket) :
    (broadcast_to_pond s p msg f).1.stats.messages_sent =
      s.stats.messages_sent + (bucket.filter f).length ∧
    ∀ ws ∈ bucket, f ws = true →
      ∃ m, alookup s.connection_metadata ws = some m ∧
        alookup (broadcast_to_pond s p msg f).1.connection_metadata ws =
          some { m with message_count := m.message_count + 1 } := by
  have hgs := Inv_GoodState s hInv
  have hr : (broadcast_to_pond s p msg f).1 =
      ((sendLoop f s bucket).2.2.foldl disconnect (sendLoop f s bucket).1) := by
    simp only [broadcast_to_pond, hbuck]
  constructor
  · rw [hr, foldl_disconnect_sent]
    have h := sendLoop_stats f bucket s
    rw [h]
  · intro ws hws hfw
    obtain ⟨m, hm1, _⟩ := (hgs.1 p bucket hbuck).2.2 ws hws
    have hnd : bucket.Nodup := (hgs.1 p bucket hbuck).2.1
    have hdead : ws ∉ (sendLoop f s bucket).2.2 := by
      rw [sendLoop_dead]
      intro hin
      have := (List.mem_filter.mp hin).2
      rw [hfw] at this
      simp at this
    have hcount : (bucket.filter f).count ws = 1 :=
      List.count_eq_one_of_mem (hnd.filter f)
        (List.mem_filter.mpr ⟨hws, hfw⟩)
    refine ⟨m, hm1, ?_⟩
    rw [hr, foldl_disconnect_meta, if_neg hdead]
    have h := sendLoop_meta f bucket s ws
    rw [hm1, hcount] at h
    exact h

theorem c6_witness :
    Inv broadcastState = true ∧
    (broadcast_to_pond broadcastState 7 "m" (fun _ => true)).1.stats.messages_sent =
      broadcastState.stats.messages_sent +
        (([1, 2, 3].filter (fun _ => true)).length) ∧
    (∃ m, alookup broadcastState.connection_metadata 1 = some m ∧
      alookup (broadcast_to_pond broadcastState 7 "m"
        (fun _ => true)).1.connection_metadata 1 =
        some { m with message_count := m.message_count + 1 }) := by
  have hInv : Inv broadcastState = true := by decide
  have hb : alookup broadcastState.active_connections 7 = some [1, 2, 3] := by
    decide
  have h := c6_broadcast_counters broadcastState 7 "m" (fun _ => true)
    [1, 2, 3] hInv hb
  exact ⟨hInv, h.1, h.2 1 (by decide) rfl⟩

/-- Claim C7: cleanup_inactive_connections removes from the registry
exactly the channels whose idle time now - last_heartbeat strictly
exceeds the threshold, and leaves every other channel registered
with unchanged metadata. -/
theorem c7_cleanup_threshold (s : ConnectionManager) (now tmax : Int)
    (hnd : (s.connection_metadata.map Prod.fst).Nodup) (ws : Nat) :
    alookup (cleanup_inactive_connections s now tmax).connection_metadata ws =
      match alookup s.connection_metadata ws with
      | some m => if now - m.last_heartbeat > tmax then none else some m
      | none => none := by
  unfold cleanup_inactive_connections
  rw [foldl_disconnect_meta]
  cases hm : alookup s.connection_metadata ws with
  | none =>
    have hnot : ws ∉ (s.connection_metadata.filter
        (fun e => decide (now - e.2.last_heartbeat > tmax))).map Prod.fst := by
      intro hin
      obtain ⟨e, he, hex⟩ := List.mem_map.mp hin
      have hef := (List.mem_filter.mp he).1
      have : alookup s.connection_metadata e.1 = some e.2 :=
        alookup_of_mem _ _ _ hnd hef
      rw [hex, hm] at this
      exact Option.noConfusion this
    rw [if_neg hnot]
  | some m =>
    by_cases hidle : now - m.last_heartbeat > tmax
    · have hin : ws ∈ (s.connection_metadata.filter
          (fun e => decide (now - e.2.last_heartbeat > tmax))).map Prod.fst := by
        refine List.mem_map.mpr ⟨(ws, m), ?_, rfl⟩
        exact List.mem_filter.mpr ⟨mem_of_alookup _ _ _ hm, by simpa using hidle⟩
      rw [if_pos hin]
      simp [hidle]
    · have hnot : ws ∉ (s.connection_metadata.filter
          (fun e => decide (now - e.2.last_heartbeat > tmax))).map Prod.fst := by
        intro hin
        obtain ⟨e, he, hex⟩ := List.mem_map.mp hin
        have hef := List.mem_filter.mp he
        have hale : alookup s.connection_metadata e.1 = some e.2 :=
          alookup_of_mem _ _ _ hnd hef.1
        rw [hex, hm] at hale
        have hem : m = e.2 := Option.some.inj hale
        have hp := hef.2
        rw [← hem] at hp
        simp at hp
        omega
      rw [if_neg hnot]
      simp [hidle]

theorem c7_witness :
    (cleanupState.connection_metadata.map Prod.fst).Nodup ∧
    alookup (cleanup_inactive_connections cleanupState 500
      300).connection_metadata 1 = none ∧
    (∃ m, alookup (cleanup_inactive_connections cleanupState 500
      300).connection_metadata 2 = some m) := by
  have hnd : (cleanupState.connection_metadata.map Prod.fst).Nodup := by decide
  refine ⟨hnd, ?_, ?_⟩
  · have h := c7_cleanup_threshold cleanupState 500 300 hnd 1
    rw [h]
    decide
  · have h := c7_cleanup_threshold cleanupState 500 300 hnd 2
    rw [h]
    exact ⟨{ pond_id := 7, user_id := none, connected_at := 400,
             status := ConnectionStatus.connected, last_heartbeat := 400,
             message_count := 0 }, by decide⟩

/-- Claim C8: in an invariant-satisfying state, broadcast_to_user
delivers only to channels whose stored user_id equals the target
owner; a channel with a different or absent owner id is never in
the delivered list, whatever resource it subscribes to. -/
theorem c8_no_crosstalk (s : ConnectionManager) (u : Int) (msg : String)
    (f : Nat → Bool) (hInv : Inv s = true) :
    ∀ ws ∈ (broadcast_to_user s u msg f).2,
      ∃ m, alookup s.connection_metadata ws = some m ∧
        m.user_id = some u := by
  have hgs := Inv_GoodState s hInv
  cases hb : alookup s.user_connections u with
  | none =>
    intro ws hws
    simp [broadcast_to_user, hb] at hws
  | some bucket =>
    intro ws hws
    have hdel : (broadcast_to_user s u msg f).2 = bucket.filter f := by
      simp only [broadcast_to_user, hb]
      exact sendLoop_delivered f bucket s
    rw [hdel] at hws
    exact (hgs.2.1 u bucket hb).2.2 ws (List.mem_filter.mp hws).1

theorem c8_witness :
    Inv twoOwnerState = true ∧
    (1 : Nat) ∈ (broadcast_to_user twoOwnerState 42 "m" (fun _ => true)).2 ∧
    (∃ m, alookup twoOwnerState.connection_metadata 1 = some m ∧
      m.user_id = some 42) := by
  have hInv : Inv twoOwnerState = true := by decide
  have hmem : (1 : Nat) ∈
      (broadcast_to_user twoOwnerState 42 "m" (fun _ => true)).2 := by decide
  exact ⟨hInv, hmem,
    c8_no_crosstalk twoOwnerState 42 "m" (fun _ => true) hInv 1 hmem⟩

/-- Claim C9: send_heartbeat never raises (it is a total function on
states and both send outcomes are handled); a failed send leaves the
state literally unchanged, so last_heartbeat is not updated and the
connection is not removed; a successful send only rewrites the
channel's last_heartbeat, touching no index, no other channel and no
counter. -/
theorem c9_heartbeat_isolation (s : ConnectionManager) (ws : Nat) (now : Int) :
    send_heartbeat s ws now false = s ∧
    (send_heartbeat s ws now true).active_connections = s.active_connections ∧
    (send_heartbeat s ws now true).user_connections = s.user_connections ∧
    (send_heartbeat s ws now true).stats = s.stats ∧
    (∀ x, x ≠ ws →
      alookup (send_heartbeat s ws now true).connection_metadata x =
        alookup s.connection_metadata x) ∧
    (∀ m, alookup s.connection_metadata ws = some m →
      alookup (send_heartbeat s ws now true).connection_metadata ws =
        some { m with last_heartbeat := now }) ∧
    (alookup s.connection_metadata ws = none →
      send_heartbeat s ws now true = s) := by
  refine ⟨rfl, ?_, ?_, ?_, ?_, ?_, ?_⟩
  · cases hm : alookup s.connection_metadata ws <;> simp [send_heartbeat, hm]
  · cases hm : alookup s.connection_metadata ws <;> simp [send_heartbeat, hm]
  · cases hm : alookup s.connection_metadata ws <;> simp [send_heartbeat, hm]
  · intro x hx
    cases hm : alookup s.connection_metadata ws with
    | none => simp [send_heartbeat, hm]
    | some m =>
      simp only [send_heartbeat, hm, if_pos rfl]
      exact alookup_aset_ne _ _ _ _ hx
  · intro m hm
    simp only [send_heartbeat, hm, if_pos rfl]
    exact alookup_aset_self _ _ _
  · intro hm
    simp [send_heartbeat, hm]

theorem c9_witness :
    send_heartbeat broadcastState 1 999 false = broadcastState ∧
    alookup (send_heartbeat broadcastState 1 999 true).connection_metadata 1 =
      some { pond_id := 7, user_id := some 42, connected_at := 0,
             status := ConnectionStatus.connected, last_heartbeat := 999,
             message_count := 0 } := by
  refine ⟨(c9_heartbeat_isolation broadcastState 1 999).1, ?_⟩
  exact (c9_heartbeat_isolation broadcastState 1 999).2.2.2.2.2.1
    { pond_id := 7, user_id := some 42, connected_at := 0,
      status := ConnectionStatus.connected, last_heartbeat := 0,
      message_count := 0 } (by decide)

/-- Claim C10: connect with owner id 0 is treated as an unowned
connection: the owner index is left untouched, so the owner-0
connection count is unchanged and broadcast_to_owner(0) does not
deliver to the channel (given it was not already in an owner-0
bucket, which no reachable state has), while the channel is in its
resource bucket and a resource broadcast delivers to it. -/
theorem c10_owner_zero (s : ConnectionManager) (ws : Nat) (p : Int)
    (now : Int) (w : Bool) (msg : String) (f : Nat → Bool)
    (hno : ∀ l, alookup s.user_connections 0 = some l → ws ∉ l) :
    (connect s ws p (some 0) now true w).1.user_connections =
      s.user_connections ∧
    get_user_connections_count (connect s ws p (some 0) now true w).1 0 =
      get_user_connections_count s 0 ∧
    ws ∉ (broadcast_to_user (connect s ws p (some 0) now true w).1 0 msg f).2 ∧
    (∃ l, alookup (connect s ws p (some 0) now true w).1.active_connections p =
      some l ∧ ws ∈ l) ∧
    ws ∈ (broadcast_to_pond (connect s ws p (some 0) now true w).1 p msg
      (fun _ => true)).2 := by
  have huser : (connect s ws p (some 0) now true w).1.user_connections =
      s.user_connections := by
    simp [connect]
  have hal := connect_active_lookup s ws p (some 0) now w p
  rw [if_pos rfl] at hal
  refine ⟨huser, ?_, ?_, ?_, ?_⟩
  · unfold get_user_connections_count
    rw [huser]
  · cases hb : alookup s.user_connections 0 with
    | none =>
      intro hin
      simp only [broadcast_to_user, huser, hb] at hin
      simp at hin
    | some bucket =>
      intro hin
      have hdel : (broadcast_to_user
          (connect s ws p (some 0) now true w).1 0 msg f).2 =
          bucket.filter f := by
        simp only [broadcast_to_user, huser, hb]
        exact sendLoop_delivered f bucket _
      rw [hdel] at hin
      exact hno bucket hb (List.mem_filter.mp hin).1
  · exact ⟨_, hal, (mem_sadd _ _ _).mpr (Or.inl rfl)⟩
  · have hdel : (broadcast_to_pond (connect s ws p (some 0) now true w).1 p msg
        (fun _ => true)).2 =
        (sadd ((alookup s.active_connections p).getD []) ws).filter
          (fun _ => true) := by
      simp only [broadcast_to_pond, hal]
      exact sendLoop_delivered _ _ _
    rw [hdel, List.filter_true]
    exact (mem_sadd _ _ _).mpr (Or.inl rfl)

theorem c10_witness :
    (∀ l, alookup initManager.user_connections 0 = some l → (1 : Nat) ∉ l) ∧
    (connect initManager 1 7 (some 0) 0 true true).1.user_connections =
      initManager.user_connections ∧
    (1 : Nat) ∈ (broadcast_to_pond
      (connect initManager 1 7 (some 0) 0 true true).1 7 "m"
      (fun _ => true)).2 := by
  have hh : ∀ l, alookup initManager.user_connections 0 = some l →
      (1 : Nat) ∉ l := by
    intro l hl
    simp [initManager, alookup] at hl
  have h := c10_owner_zero initManager 1 7 0 true "m" (fun _ => true) hh
  exact ⟨hh, h.1, h.2.2.2.2⟩

end WsSpec
